import Mathlib

/-!
Verification of the car dealership sale / installment / profit subsystem.

The definitions below are a shallow embedding of the Node.js source:
the `Car` mongoose model (`src/model/Car.js`, with the installment
payment-history schema and `addInstallmentPayment` method from the fuller
model version in `src/unnamed/part_005`) and the live car controller
(the last version in `src/controllers/car-controller.js`, lines 3116-5325).

Modelling conventions:
* JavaScript numbers are modelled as `Int`; every amount in the source is
  used as an integer quantity and `Number(x)` conversions are assumed to
  have already happened (NaN inputs are outside the model).
* A JavaScript `Date` is modelled as `Instant`: a calendar instant with
  year, month (0-based, as in JS), day (1-based) and an intra-day time
  component, ordered lexicographically.  `new Date(y, m, 1)` with an
  out-of-range month is modelled by `mkJSDate`, which normalises the
  month exactly as the JS `Date` constructor does.
* Mongoose persistence: each controller operation is a pure function
  `Car → Except ε Car`.  A successful run commits the saved document;
  any early `return`/abort leaves the stored document unchanged, which
  `dbAfter` makes explicit.  `Car.save` applies the schema save hooks
  (`pre('validate')` then `pre('save')`) exactly as the model defines.
* JS truthiness tests on numbers (`!x`) are modelled as `x == 0`, on
  strings as `s == ""`, and on optional values as `Option.isNone`
  (plus the empty-value case where the source can receive one).
-/

/-- `boughtType` enum of the car schema (`"Paid" | "Installment" | null`;
the `null` case is `Option.none` at the use site). -/
inductive BoughtType where
  | paid
  | installment
deriving DecidableEq, Repr

/-- A calendar instant standing for a JS `Date`: 0-based month, 1-based day,
and an abstract intra-day time component (milliseconds within the day). -/
structure Instant where
  year : Int
  month : Int
  day : Int
  time : Int
deriving DecidableEq, Repr

/-- Chronological order on instants (lexicographic on the calendar fields).
This is how MongoDB compares the stored `Date` values in range queries. -/
def Instant.le (a b : Instant) : Bool :=
  if a.year ≠ b.year then a.year < b.year
  else if a.month ≠ b.month then a.month < b.month
  else if a.day ≠ b.day then a.day < b.day
  else a.time ≤ b.time

/-- Strict chronological order on instants. -/
def Instant.lt (a b : Instant) : Bool :=
  Instant.le a b && a ≠ b

/-- `new Date(y, m, 1)` of JavaScript: the month is normalised into `0..11`
carrying overflow into the year (e.g. `new Date(2025, -3, 1)` is Oct 2024). -/
def mkJSDate (y m d : Int) : Instant :=
  { year := y + m.fdiv 12, month := m.emod 12, day := d, time := 0 }

/-- An instant whose calendar fields are in range (what `new Date()` returns). -/
def Instant.wf (a : Instant) : Prop :=
  0 ≤ a.month ∧ a.month < 12 ∧ 1 ≤ a.day ∧ a.day ≤ 31 ∧ 0 ≤ a.time

instance (a : Instant) : Decidable a.wf := by
  unfold Instant.wf; infer_instance

/-- A repair entry of `repairSchema`: description, date, cost. -/
structure Repair where
  description : String
  repairDate : Instant
  cost : Int
deriving DecidableEq, Repr

/-- The cash-sale sub-document (`saleSchema`), buyer flattened. -/
structure Sale where
  price : Int
  date : Instant
  kiloAtSale : Int
  buyerName : String
  buyerPassport : String
deriving DecidableEq, Repr

/-- One entry of `installment.paymentHistory`.  Entries written by the
month-keyed upsert controller carry `monthNumber` and `penaltyFee`; entries
written by the simple `addInstallmentPayment` path carry neither, hence
`monthNumber : Option Int` (`none` = the JS field is `undefined`) and
`penaltyFee` defaulting to 0 (the source always reads it as `p.penaltyFee || 0`). -/
structure PaymentEntry where
  monthNumber : Option Int
  amount : Int
  penaltyFee : Int
  paymentDate : Instant
  notes : String
deriving DecidableEq, Repr

/-- The installment sub-document (`installmentSchema`), buyer flattened. -/
structure Installment where
  downPayment : Int
  remainingAmount : Int
  months : Int
  monthlyPayment : Int
  buyerName : String
  buyerPassport : String
  startDate : Instant
  paymentHistory : List PaymentEntry
deriving DecidableEq, Repr

/-- The `ownerBookTransfer` record the controller writes on a legal
title transfer. -/
structure OwnerBook where
  transferred : Bool
  transferDate : Instant
  notes : String
deriving DecidableEq, Repr

/-- The Vehicle Record (`carSchema`), restricted to the fields the sale,
installment, transfer and profit logic reads. -/
structure Car where
  licenseNo : String
  brand : String
  kilo : Int
  isAvailable : Bool
  purchasePrice : Int
  priceToSell : Int
  boughtType : Option BoughtType
  sale : Option Sale
  installment : Option Installment
  ownerBookTransfer : Option OwnerBook
  repairs : List Repair
deriving DecidableEq, Repr

/-- `(car.repairs || []).reduce((sum, r) => sum + (r.cost || 0), 0)`. -/
def repairCostSum (rs : List Repair) : Int :=
  rs.foldr (fun r acc => r.cost + acc) 0

/-- `history.reduce((sum, p) => sum + (p.amount || 0), 0)`. -/
def sumAmounts (h : List PaymentEntry) : Int :=
  h.foldr (fun p acc => p.amount + acc) 0

/-- `history.reduce((sum, p) => sum + (p.penaltyFee || 0), 0)`. -/
def sumPenalties (h : List PaymentEntry) : Int :=
  h.foldr (fun p acc => p.penaltyFee + acc) 0

/-- `history.findIndex(p => p.monthNumber === month) >= 0`. -/
def hasMonth (h : List PaymentEntry) (m : Int) : Bool :=
  h.any (fun p => p.monthNumber == some m)

/-- The in-place replacement the upsert controller performs at the first
index whose `monthNumber` matches: all entry fields are overwritten, except
that an omitted `notes` keeps the old entry notes
(`notes !== undefined ? notes : old.notes || ""`). -/
def replaceMonth (m a pen : Int) (d : Instant) (notes : Option String) :
    List PaymentEntry → List PaymentEntry
  | [] => []
  | p :: rest =>
    if p.monthNumber == some m then
      { monthNumber := some m, amount := a, penaltyFee := pen, paymentDate := d,
        notes := notes.getD p.notes } :: rest
    else
      p :: replaceMonth m a pen d notes rest

/-- `updatedHistory.filter(p => p.monthNumber !== month)`. -/
def removeMonth (m : Int) (h : List PaymentEntry) : List PaymentEntry :=
  h.filter (fun p => !(p.monthNumber == some m))

/-- `carSchema.pre('validate')`: a sold car (`sold = !!sale || !!installment`)
is forced unavailable. -/
def Car.preValidate (c : Car) : Car :=
  if (c.sale.isSome || c.installment.isSome) && c.isAvailable then
    { c with isAvailable := false }
  else c

/-- `carSchema.pre('save')`: derive `isAvailable` and `boughtType` from
which of `sale` / `installment` is populated. -/
def Car.preSave (c : Car) : Car :=
  if c.sale.isSome then
    { c with isAvailable := false, boughtType := some .paid }
  else if c.installment.isSome then
    { c with isAvailable := false, boughtType := some .installment }
  else c

/-- `car.save()`: mongoose runs the validate hooks, then the save hooks. -/
def Car.save (c : Car) : Car :=
  c.preValidate.preSave

/-- Arguments of the model method `carSchema.methods.markAsPaid`. -/
structure PaidArgs where
  price : Int
  date : Instant
  kiloAtSale : Int
  buyerName : String
  buyerPassport : String
deriving DecidableEq, Repr

/-- `carSchema.methods.markAsPaid`.  The method throws when
`!price || !date || !kiloAtSale || !buyer?.name` (the date is always a
parsed `Date` here, so only the numeric and name truthiness can fail). -/
def Car.markAsPaid (c : Car) (a : PaidArgs) : Except String Car :=
  if a.price == 0 || a.kiloAtSale == 0 || a.buyerName == "" then
    .error "Paid sale requires price, date, kiloAtSale, and buyer.name"
  else
    .ok { c with
      sale := some { price := a.price, date := a.date, kiloAtSale := a.kiloAtSale,
                     buyerName := a.buyerName, buyerPassport := a.buyerPassport },
      installment := none,
      boughtType := some .paid,
      isAvailable := false,
      kilo := if c.kilo < a.kiloAtSale then a.kiloAtSale else c.kilo }

/-- Arguments of the model method `carSchema.methods.markAsInstallment`. -/
structure InstArgs where
  downPayment : Int
  remainingAmount : Int
  months : Int
  monthlyPayment : Int
  buyerName : String
  buyerPassport : String
  startDate : Instant
deriving DecidableEq, Repr

/-- `carSchema.methods.markAsInstallment` (part_005 version).  Throws when
`downPayment == null || remainingAmount == null || months == null ||
monthlyPayment == null || !months || !buyer?.name`; in this embedding the
numeric arguments are always present, so only `!months` (months = 0) and a
missing buyer name can fail.  A fresh installment starts with an empty
payment ledger (the schema default). -/
def Car.markAsInstallment (c : Car) (a : InstArgs) : Except String Car :=
  if a.months == 0 || a.buyerName == "" then
    .error "Installment requires downPayment, remainingAmount, months, monthlyPayment, and buyer.name"
  else
    .ok { c with
      installment := some { downPayment := a.downPayment,
                            remainingAmount := a.remainingAmount,
                            months := a.months,
                            monthlyPayment := a.monthlyPayment,
                            buyerName := a.buyerName,
                            buyerPassport := a.buyerPassport,
                            startDate := a.startDate,
                            paymentHistory := [] },
      sale := none,
      boughtType := some .installment,
      isAvailable := false }

/-- `carSchema.methods.relist`: clear all sale state and restore availability. -/
def Car.relist (c : Car) : Car :=
  { c with sale := none, installment := none, boughtType := none, isAvailable := true }

/-- `carSchema.methods.addInstallmentPayment` (part_005 lines 524-554):
validate, push a `{amount, paymentDate, notes}` ledger entry and decrement
`remainingAmount`, clamped at 0. -/
def Car.addInstallmentPayment (c : Car) (amount : Int) (paymentDate : Instant)
    (notes : String) : Except String Car :=
  match c.installment with
  | none => .error "Car is not sold on installment"
  | some ins =>
    if amount ≤ 0 then
      .error "Payment amount must be a valid positive number"
    else if amount > ins.remainingAmount then
      .error "Payment amount exceeds remaining amount"
    else
      let entry : PaymentEntry :=
        { monthNumber := none, amount := amount, penaltyFee := 0,
          paymentDate := paymentDate, notes := notes }
      let ins1 : Installment :=
        { ins with paymentHistory := ins.paymentHistory ++ [entry],
                   remainingAmount := max 0 (ins.remainingAmount - amount) }
      .ok { c with installment := some ins1 }

/-- The stored document after running a controller operation: a successful
run commits the saved car, any early return / aborted transaction leaves the
stored document unchanged. -/
def dbAfter {ε : Type} (r : Except ε Car) (c : Car) : Car :=
  match r with
  | .ok c1 => c1
  | .error _ => c

/-- Error taxonomy of the specification (§7), to which each controller
error response is mapped. -/
inductive ErrKind where
  | validationError
  | notFoundError
  | conflictError
  | invalidStateError
  | serverError
deriving DecidableEq, Repr

/-- The distinct error responses of the `markAsPaid` controller. -/
inductive PaidErr where
  /-- 400 `Required: sale.price, sale.soldDate, ...` -/
  | requiredFields
  /-- 400 `Car is already marked as sold` -/
  | alreadySold
  /-- 400 `sale.price must be a valid positive number` -/
  | invalidPrice
  /-- 400 `sale.kiloAtSale must be a valid non-negative number` -/
  | invalidKilo
  /-- 500, model method threw -/
  | methodThrew
deriving DecidableEq, Repr

/-- Mapping of `markAsPaid` error responses onto the spec error taxonomy:
the not-available guard is the state-machine conflict (`AlreadySold`). -/
def PaidErr.kind : PaidErr → ErrKind
  | .requiredFields => .validationError
  | .invalidPrice => .validationError
  | .invalidKilo => .validationError
  | .alreadySold => .conflictError
  | .methodThrew => .serverError

/-- The `sale` object of a `markAsPaid` request body.  `soldDate = none`
models a missing/falsy date field (a provided date is assumed parseable;
`toDate` failures are outside the model). -/
structure SaleReq where
  price : Int
  soldDate : Option Instant
  kiloAtSale : Int
  buyerName : String
  buyerPassport : String
deriving DecidableEq, Repr

/-- The `markAsPaid` controller (car-controller.js lines 3554-3655), acting
on the car the id resolves to.  Guard order as in the source: required-field
truthiness, not-available, numeric validation, date validation, model
method, forced `isAvailable = false`, save. -/
def markAsPaid (r : SaleReq) (c : Car) : Except PaidErr Car :=
  if r.price == 0 || r.soldDate.isNone || r.kiloAtSale == 0 ||
      r.buyerName == "" || r.buyerPassport == "" then
    .error .requiredFields
  else if !c.isAvailable then
    .error .alreadySold
  else if r.price ≤ 0 then
    .error .invalidPrice
  else if r.kiloAtSale < 0 then
    .error .invalidKilo
  else
    match r.soldDate with
    | none => .error .requiredFields
    | some d =>
      match c.markAsPaid { price := r.price, date := d, kiloAtSale := r.kiloAtSale,
                           buyerName := r.buyerName, buyerPassport := r.buyerPassport } with
      | .error _ => .error .methodThrew
      | .ok c1 => .ok (Car.save { c1 with isAvailable := false })

/-- The distinct error responses of the `markAsInstallment` controller. -/
inductive InstErr where
  /-- 400 `Required: installment.downPayment, installment.remainingAmount, ...` -/
  | requiredFields
  /-- 400 `Car is already marked as sold` -/
  | alreadySold
  /-- 400 `installment.downPayment must be a valid non-negative number` -/
  | invalidDownPayment
  /-- 400 `installment.remainingAmount must be a valid non-negative number` -/
  | invalidRemaining
  /-- 400 `installment.months must be a valid positive integer` -/
  | invalidMonths
  /-- 400 `installment.monthlyPayment must be a valid positive number` -/
  | invalidMonthlyPayment
  /-- 500, model method threw -/
  | methodThrew
deriving DecidableEq, Repr

/-- Mapping of `markAsInstallment` error responses onto the spec taxonomy. -/
def InstErr.kind : InstErr → ErrKind
  | .requiredFields => .validationError
  | .invalidDownPayment => .validationError
  | .invalidRemaining => .validationError
  | .invalidMonths => .validationError
  | .invalidMonthlyPayment => .validationError
  | .alreadySold => .conflictError
  | .methodThrew => .serverError

/-- The `installment` object of a `markAsInstallment` request body.
`startDate = none` means the field was absent (the controller then uses the
current time). -/
structure InstReq where
  downPayment : Int
  remainingAmount : Int
  months : Int
  monthlyPayment : Int
  buyerName : String
  buyerPassport : String
  startDate : Option Instant
deriving DecidableEq, Repr

/-- The `markAsInstallment` controller (car-controller.js lines 3658-3784).
`now` is the server clock, used when no `startDate` is supplied.  Note the
first guard is a JS truthiness test, so a zero `downPayment`,
`remainingAmount`, `months` or `monthlyPayment` is rejected here as a
missing field, before the dedicated non-negative checks further down can
accept it. -/
def markAsInstallment (now : Instant) (r : InstReq) (c : Car) : Except InstErr Car :=
  if r.downPayment == 0 || r.remainingAmount == 0 || r.months == 0 ||
      r.monthlyPayment == 0 || r.buyerName == "" || r.buyerPassport == "" then
    .error .requiredFields
  else if !c.isAvailable then
    .error .alreadySold
  else if r.downPayment < 0 then
    .error .invalidDownPayment
  else if r.remainingAmount < 0 then
    .error .invalidRemaining
  else if r.months < 1 then
    .error .invalidMonths
  else if r.monthlyPayment ≤ 0 then
    .error .invalidMonthlyPayment
  else
    let startDate := r.startDate.getD now
    match c.markAsInstallment { downPayment := r.downPayment,
                                remainingAmount := r.remainingAmount,
                                months := r.months,
                                monthlyPayment := r.monthlyPayment,
                                buyerName := r.buyerName,
                                buyerPassport := r.buyerPassport,
                                startDate := startDate } with
    | .error _ => .error .methodThrew
    | .ok c1 => .ok (Car.save { c1 with isAvailable := false })

/-- The distinct error responses of the `addInstallmentPayment` controller. -/
inductive AddPayErr where
  /-- 400 `Payment amount is required` (truthiness check on `amount`) -/
  | amountRequired
  /-- 400 `Car not sold on installment or not found` -/
  | notInstallment
  /-- 400 `Payment amount must be a valid positive number` -/
  | invalidAmount
  /-- 400 `Payment amount ... exceeds remaining amount ...` -/
  | exceedsRemaining
  /-- 400, model method threw -/
  | methodThrew
deriving DecidableEq, Repr

/-- The `addInstallmentPayment` controller (car-controller.js lines
4407-4520): validates, then delegates to the model method.  `amount = 0`
is caught by the `!amount` truthiness guard. -/
def addInstallmentPayment (now : Instant) (amount : Int)
    (paymentDate : Option Instant) (notes : Option String) (c : Car) :
    Except AddPayErr Car :=
  if amount == 0 then
    .error .amountRequired
  else
    match c.installment with
    | none => .error .notInstallment
    | some ins =>
      if amount ≤ 0 then
        .error .invalidAmount
      else if amount > ins.remainingAmount then
        .error .exceedsRemaining
      else
        match c.addInstallmentPayment amount (paymentDate.getD now) (notes.getD "") with
        | .error _ => .error .methodThrew
        | .ok c1 => .ok (Car.save c1)

/-- The distinct error responses of the month-keyed upsert controller. -/
inductive UpsErr where
  /-- 400 `monthNumber must be a positive integer` -/
  | invalidMonth
  /-- 400 `paid flag is required` -/
  | paidRequired
  /-- 400 `penaltyFee must be zero or a positive number` -/
  | invalidPenalty
  /-- 404 `Car not found or not sold on installment` -/
  | notInstallment
  /-- 400 `Payment amount must be zero or a positive number` -/
  | invalidAmount
deriving DecidableEq, Repr

/-- A `upsertInstallmentPaymentByMonth` request body.  `amount = none`
models `amount` being `undefined`/`null` (the controller then falls back to
the contract's standard monthly payment); `paid = none` models a missing
`paid` flag. -/
structure UpsertReq where
  monthNumber : Int
  paid : Option Bool
  penaltyFee : Int
  paymentDate : Option Instant
  notes : Option String
  amount : Option Int
deriving DecidableEq, Repr

/-- The ledger rewrite of the upsert controller (car-controller.js lines
4580-4645): compute the original contract total, upsert or remove the
month entry, and re-derive `remainingAmount` from the original total,
clamped at 0. -/
def upsertApply (ins : Installment) (month : Int) (paidFlag : Bool)
    (amt pen : Int) (d : Instant) (notes : Option String) : Installment :=
  let historyPaidTotal := sumAmounts ins.paymentHistory
  let originalTotal := ins.downPayment + ins.remainingAmount + historyPaidTotal
  let updatedHistory :=
    if paidFlag then
      if hasMonth ins.paymentHistory month then
        replaceMonth month amt pen d notes ins.paymentHistory
      else
        ins.paymentHistory ++
          [{ monthNumber := some month, amount := amt, penaltyFee := pen,
             paymentDate := d, notes := notes.getD "" }]
    else
      removeMonth month ins.paymentHistory
  let newRemainingAmount :=
    max 0 (originalTotal - ins.downPayment - sumAmounts updatedHistory)
  { ins with paymentHistory := updatedHistory,
             remainingAmount := newRemainingAmount }

/-- The `upsertInstallmentPaymentByMonth` controller (car-controller.js
lines 4523-4705).  `now` is the server clock, used when no payment date is
supplied. -/
def upsertInstallmentPaymentByMonth (now : Instant) (r : UpsertReq) (c : Car) :
    Except UpsErr Car :=
  if r.monthNumber < 1 then
    .error .invalidMonth
  else
    match r.paid with
    | none => .error .paidRequired
    | some paidFlag =>
      if r.penaltyFee < 0 then
        .error .invalidPenalty
      else
        match c.installment with
        | none => .error .notInstallment
        | some ins =>
          let monthlyPayment := r.amount.getD ins.monthlyPayment
          if monthlyPayment < 0 then
            .error .invalidAmount
          else
            let ins1 := upsertApply ins r.monthNumber paidFlag monthlyPayment
                          r.penaltyFee (r.paymentDate.getD now) r.notes
            .ok (Car.save { c with installment := some ins1 })

/-- The distinct error responses of the `ownerBookTransfer` controller. -/
inductive TransferErr where
  /-- 400 `Car is not sold or is still available` -/
  | notSoldOrAvailable
  /-- 400 `Owner book already transferred` -/
  | alreadyTransferred
  /-- 400 `All installment payments must be completed before transfer` -/
  | paymentsIncomplete
deriving DecidableEq, Repr

/-- Mapping of `ownerBookTransfer` error responses onto the spec taxonomy:
an operation not permitted in the current state is `InvalidStateError`,
re-transfer of an already transferred title is `ConflictError`. -/
def TransferErr.kind : TransferErr → ErrKind
  | .notSoldOrAvailable => .invalidStateError
  | .paymentsIncomplete => .invalidStateError
  | .alreadyTransferred => .conflictError

/-- The `ownerBookTransfer` controller (car-controller.js lines 5252-5324).
Only `notes` is read from the request body; `now` is the server clock at
the moment of the call.  Guard order as in the source: not-sold / still
available, already transferred, installment not fully paid. -/
def ownerBookTransfer (now : Instant) (notes : Option String) (c : Car) :
    Except TransferErr Car :=
  if (c.sale.isNone && c.installment.isNone) || c.isAvailable then
    .error .notSoldOrAvailable
  else if (c.ownerBookTransfer.map OwnerBook.transferred).getD false then
    .error .alreadyTransferred
  else if c.boughtType == some .installment &&
      ((c.installment.map Installment.remainingAmount).getD 0 > 0) then
    .error .paymentsIncomplete
  else
    let c1 := { c with
      ownerBookTransfer := some { transferred := true, transferDate := now,
                                  notes := notes.getD "" },
      isAvailable := false }
    .ok (Car.save c1)

/-- The distinct error responses of the two detail-edit controllers. -/
inductive EditErr where
  /-- 400 `Car not sold ... or not found` -/
  | notInState
  /-- 400 `buyer.passport is required when updating buyer information` -/
  | passportRequired
  /-- 400, a numeric or date field failed validation -/
  | invalidField
deriving DecidableEq, Repr

/-- Buyer sub-object of an edit request. -/
structure EditBuyer where
  name : String
  phone : String
  passport : String
deriving DecidableEq, Repr

/-- An `editSaleInfo` request body: every field optional. -/
structure EditSaleReq where
  buyer : Option EditBuyer
  kiloAtSale : Option Int
  saleDate : Option Instant
  price : Option Int
deriving DecidableEq, Repr

/-- The `editSaleInfo` controller (car-controller.js lines 4192-4284):
requires an existing cash sale, then field-wise validated updates. -/
def editSaleInfo (r : EditSaleReq) (c : Car) : Except EditErr Car :=
  match c.sale with
  | none => .error .notInState
  | some s =>
    match r.buyer with
    | some b =>
      if b.passport == "" then .error .passportRequired
      else
        let s1 := { s with
          buyerName := if b.name == "" then s.buyerName else b.name,
          buyerPassport := b.passport }
        editSaleNumeric r c s1
    | none => editSaleNumeric r c s
where
  /-- The numeric / date part of the update (kiloAtSale, saleDate, price). -/
  editSaleNumeric (r : EditSaleReq) (c : Car) (s : Sale) : Except EditErr Car :=
    match r.kiloAtSale with
    | some k =>
      if k < 0 then .error .invalidField
      else editSaleTail r c { s with kiloAtSale := k }
    | none => editSaleTail r c s
  /-- Date and price updates, then save. -/
  editSaleTail (r : EditSaleReq) (c : Car) (s : Sale) : Except EditErr Car :=
    let s1 := match r.saleDate with
      | some d => { s with date := d }
      | none => s
    match r.price with
    | some p =>
      if p ≤ 0 then .error .invalidField
      else .ok (Car.save { c with sale := some { s1 with price := p } })
    | none => .ok (Car.save { c with sale := some s1 })

/-- An `editInstallmentInfo` request body: every field optional.  The
source also destructures `monthlyPayment` from the body but never applies
it, so it is omitted here. -/
structure EditInstReq where
  buyer : Option EditBuyer
  downPayment : Option Int
  remainingAmount : Option Int
  months : Option Int
  startDate : Option Instant
deriving DecidableEq, Repr

/-- The `editInstallmentInfo` controller (car-controller.js lines
4287-4404): requires an existing installment sale, then field-wise
validated updates of buyer, amounts, months and start date. -/
def editInstallmentInfo (r : EditInstReq) (c : Car) : Except EditErr Car :=
  match c.installment with
  | none => .error .notInState
  | some ins =>
    match r.buyer with
    | some b =>
      if b.passport == "" then .error .passportRequired
      else
        let ins1 := { ins with
          buyerName := if b.name == "" then ins.buyerName else b.name,
          buyerPassport := b.passport }
        editInstNumeric r c ins1
    | none => editInstNumeric r c ins
where
  /-- downPayment update. -/
  editInstNumeric (r : EditInstReq) (c : Car) (ins : Installment) :
      Except EditErr Car :=
    match r.downPayment with
    | some d =>
      if d < 0 then .error .invalidField
      else editInstRemaining r c { ins with downPayment := d }
    | none => editInstRemaining r c ins
  /-- remainingAmount update. -/
  editInstRemaining (r : EditInstReq) (c : Car) (ins : Installment) :
      Except EditErr Car :=
    match r.remainingAmount with
    | some a =>
      if a < 0 then .error .invalidField
      else editInstMonths r c { ins with remainingAmount := a }
    | none => editInstMonths r c ins
  /-- months and startDate updates, then save. -/
  editInstMonths (r : EditInstReq) (c : Car) (ins : Installment) :
      Except EditErr Car :=
    match r.months with
    | some m =>
      if m < 1 then .error .invalidField
      else editInstTail r c { ins with months := m }
    | none => editInstTail r c ins
  /-- startDate update, then save. -/
  editInstTail (r : EditInstReq) (c : Car) (ins : Installment) :
      Except EditErr Car :=
    let ins1 := match r.startDate with
      | some d => { ins with startDate := d }
      | none => ins
    .ok (Car.save { c with installment := some ins1 })

/-- Intake arguments of the `createCar` controller (car-controller.js lines
3141-3295), restricted to the modelled fields.  A new document gets the
schema defaults: `isAvailable = true`, no sale, no installment, no
transfer record, `boughtType = null`. -/
structure CreateArgs where
  licenseNo : String
  brand : String
  kilo : Int
  purchasePrice : Int
  priceToSell : Int
  repairs : List Repair
deriving DecidableEq, Repr

/-- `createCar`: builds the new document and saves it. -/
def createCar (a : CreateArgs) : Car :=
  Car.save
    { licenseNo := a.licenseNo, brand := a.brand, kilo := a.kilo,
      isAvailable := true, purchasePrice := a.purchasePrice,
      priceToSell := a.priceToSell, boughtType := none, sale := none,
      installment := none, ownerBookTransfer := none, repairs := a.repairs }

/-- `editCar` (car-controller.js lines 3877-4167) restricted to the
modelled fields: descriptive edits plus a wholesale replacement of the
repairs list; it never touches `sale`, `installment` or `isAvailable`. -/
def editCar (brand : Option String) (kilo : Option Int)
    (purchasePrice : Option Int) (priceToSell : Option Int)
    (repairs : Option (List Repair)) (c : Car) : Car :=
  Car.save
    { c with
      brand := brand.getD c.brand,
      kilo := kilo.getD c.kilo,
      purchasePrice := purchasePrice.getD c.purchasePrice,
      priceToSell := priceToSell.getD c.priceToSell,
      repairs := repairs.getD c.repairs }

/-- Output of the per-car general-profit helper `calculateCarProfit`
(car-controller.js lines 4798-4829). -/
structure CarProfitRow where
  soldPrice : Int
  totalRepairs : Int
  profit : Int
  soldOutDate : Option Instant
deriving DecidableEq, Repr

/-- `calculateCarProfit`: general profit of one sold car, anchored to the
actual sale price for a cash sale and the base asking price for an
installment sale. -/
def calculateCarProfit (c : Car) : CarProfitRow :=
  let totalRepairs := repairCostSum c.repairs
  let sp : Int × Option Instant :=
    match c.sale with
    | some s => (s.price, some s.date)
    | none =>
      match c.installment with
      | some ins => (c.priceToSell, some ins.startDate)
      | none => (c.priceToSell, none)
  { soldPrice := sp.1, totalRepairs := totalRepairs,
    profit := sp.1 - c.purchasePrice - totalRepairs, soldOutDate := sp.2 }

/-- The `paymentBreakdown` object of `calculateCarProfitDetails`. -/
structure PaymentBreakdown where
  downPayment : Int
  totalPaid : Int
  penaltyFeesTotal : Int
  remainingAmount : Int
  monthlyPayment : Int
  totalSales : Int
deriving DecidableEq, Repr

/-- Output of `calculateCarProfitDetails` (car-controller.js lines
4832-4937), restricted to the fields the claims are about. -/
structure ProfitDetails where
  soldPrice : Int
  contractValue : Int
  totalRepairs : Int
  generalProfit : Int
  detailedProfit : Int
  paymentBreakdown : PaymentBreakdown
deriving DecidableEq, Repr

/-- `calculateCarProfitDetails`: the detailed profit calculator.  Pure
function of the Vehicle Record with the source's three branches: cash sale,
installment sale, fallback. -/
def calculateCarProfitDetails (c : Car) : ProfitDetails :=
  let totalRepairs := repairCostSum c.repairs
  match c.sale with
  | some s =>
    let generalProfit := s.price - c.purchasePrice - totalRepairs
    { soldPrice := s.price, contractValue := s.price,
      totalRepairs := totalRepairs, generalProfit := generalProfit,
      detailedProfit := generalProfit,
      paymentBreakdown :=
        { downPayment := 0, totalPaid := s.price, penaltyFeesTotal := 0,
          remainingAmount := 0, monthlyPayment := 0, totalSales := 0 } }
  | none =>
    match c.installment with
    | some ins =>
      let downPayment := ins.downPayment
      let paymentHistoryTotal := sumAmounts ins.paymentHistory
      let penaltyFeesTotal := sumPenalties ins.paymentHistory
      let totalPaid := downPayment + paymentHistoryTotal
      let remainingAmount := ins.remainingAmount
      let contractValue := totalPaid + remainingAmount
      let totalSales := downPayment + paymentHistoryTotal - totalRepairs
      let generalProfit := c.priceToSell - c.purchasePrice - totalRepairs
      let detailedProfit := contractValue - c.purchasePrice - totalRepairs
      { soldPrice := c.priceToSell, contractValue := contractValue,
        totalRepairs := totalRepairs, generalProfit := generalProfit,
        detailedProfit := detailedProfit,
        paymentBreakdown :=
          { downPayment := downPayment, totalPaid := totalPaid,
            penaltyFeesTotal := penaltyFeesTotal,
            remainingAmount := remainingAmount,
            monthlyPayment := ins.monthlyPayment, totalSales := totalSales } }
    | none =>
      let generalProfit := c.priceToSell - c.purchasePrice - totalRepairs
      { soldPrice := c.priceToSell, contractValue := c.priceToSell,
        totalRepairs := totalRepairs, generalProfit := generalProfit,
        detailedProfit := generalProfit,
        paymentBreakdown :=
          { downPayment := 0, totalPaid := c.priceToSell, penaltyFeesTotal := 0,
            remainingAmount := 0, monthlyPayment := 0, totalSales := 0 } }

/-- `getDateRange` (car-controller.js lines 4780-4795): period selector to
`{startDate, now}`; an unknown period throws (`none` here).  `monthly` =
first of the current month, `6months` = first of the month five months
back, `yearly` = Jan 1 of the current year. -/
def getDateRange (period : String) (now : Instant) : Option (Instant × Instant) :=
  if period == "monthly" then
    some (mkJSDate now.year now.month 1, now)
  else if period == "6months" then
    some (mkJSDate now.year (now.month - 5) 1, now)
  else if period == "yearly" then
    some (mkJSDate now.year 0 1, now)
  else
    none

/-- The installment arm of the report queries: owner-book transfer date in
range, `boughtType = "Installment"`, installment present, fully paid
(`remainingAmount <= 0`), and title transferred.  A document without an
`ownerBookTransfer` record matches no `ownerBookTransfer.transferDate`
range condition. -/
def installmentArmMatch (startDate now : Instant) (c : Car) : Bool :=
  (match c.ownerBookTransfer with
   | some t => Instant.le startDate t.transferDate && Instant.le t.transferDate now
   | none => false) &&
  c.boughtType == some .installment &&
  c.installment.isSome &&
  ((c.installment.map Installment.remainingAmount).getD 0 ≤ 0) &&
  (match c.ownerBookTransfer with
   | some t => t.transferred
   | none => false)

/-- The cash arm of the exported `getProfitAnalysis` query: sale date in
range, `boughtType = "Paid"`, sale present. -/
def paidArmMatch (startDate now : Instant) (c : Car) : Bool :=
  (match c.sale with
   | some s => Instant.le startDate s.date && Instant.le s.date now
   | none => false) &&
  c.boughtType == some .paid &&
  c.sale.isSome

/-- The document filter of the exported `getProfitAnalysis` override
(car-controller.js lines 4951-4967): either arm, and `isAvailable: false`. -/
def getProfitAnalysisFilter (startDate now : Instant) (c : Car) : Bool :=
  (paidArmMatch startDate now c || installmentArmMatch startDate now c) &&
  !c.isAvailable

/-- The document filter of `getInstallmentProfitAnalysis`
(car-controller.js lines 5042-5049): the installment arm and
`isAvailable: false`. -/
def getInstallmentProfitAnalysisFilter (startDate now : Instant) (c : Car) : Bool :=
  installmentArmMatch startDate now c && !c.isAvailable

/-- `installmentIsFullyPaid` virtual of the car schema (part_005 lines
412-415): an installment counts as complete iff `remainingAmount <= 0`. -/
def installmentIsFullyPaid (c : Car) : Option Bool :=
  match c.installment with
  | none => none
  | some ins => some (decide (ins.remainingAmount ≤ 0))

/-- The "exactly one sale state" invariant of the spec (§8): sale and
installment never both set; either set forces `isAvailable = false`; both
absent forces `isAvailable = true`. -/
def carInv (c : Car) : Bool :=
  match c.sale, c.installment with
  | some _, some _ => false
  | some _, none => !c.isAvailable
  | none, some _ => !c.isAvailable
  | none, none => c.isAvailable

/-- The `installment.remainingAmount >= 0` data invariant (schema `min: 0`). -/
def remainingNonneg (c : Car) : Bool :=
  match c.installment with
  | none => true
  | some ins => 0 ≤ ins.remainingAmount

theorem Car.preValidate_sale (c : Car) : c.preValidate.sale = c.sale := by
  unfold Car.preValidate; split <;> rfl

theorem Car.preValidate_installment (c : Car) :
    c.preValidate.installment = c.installment := by
  unfold Car.preValidate; split <;> rfl

theorem Car.preValidate_ownerBookTransfer (c : Car) :
    c.preValidate.ownerBookTransfer = c.ownerBookTransfer := by
  unfold Car.preValidate; split <;> rfl

theorem Car.preSave_sale (c : Car) : c.preSave.sale = c.sale := by
  unfold Car.preSave; split <;> try rfl
  split <;> rfl

theorem Car.preSave_installment (c : Car) :
    c.preSave.installment = c.installment := by
  unfold Car.preSave; split <;> try rfl
  split <;> rfl

theorem Car.preSave_ownerBookTransfer (c : Car) :
    c.preSave.ownerBookTransfer = c.ownerBookTransfer := by
  unfold Car.preSave; split <;> try rfl
  split <;> rfl

theorem Car.save_sale (c : Car) : (Car.save c).sale = c.sale := by
  unfold Car.save
  rw [Car.preSave_sale, Car.preValidate_sale]

theorem Car.save_installment (c : Car) : (Car.save c).installment = c.installment := by
  unfold Car.save
  rw [Car.preSave_installment, Car.preValidate_installment]

theorem Car.save_ownerBookTransfer (c : Car) :
    (Car.save c).ownerBookTransfer = c.ownerBookTransfer := by
  unfold Car.save
  rw [Car.preSave_ownerBookTransfer, Car.preValidate_ownerBookTransfer]

/-! Concrete fixtures used by witnesses and counterexamples.  The numbers
follow the worked scenario of the spec (§8): purchase 15000, asking price
25000, repairs 2000, installment downPayment 5000 / remaining 20000 /
10 months of 2000. -/

def fixDate : Instant := { year := 2025, month := 9, day := 11, time := 0 }

def fixIns : Installment :=
  { downPayment := 5000, remainingAmount := 20000, months := 10,
    monthlyPayment := 2000, buyerName := "Aye", buyerPassport := "P123",
    startDate := fixDate, paymentHistory := [] }

def fixInstCar : Car :=
  { licenseNo := "AA1234", brand := "Toyota", kilo := 60000,
    isAvailable := false, purchasePrice := 15000, priceToSell := 25000,
    boughtType := some .installment, sale := none, installment := some fixIns,
    ownerBookTransfer := none,
    repairs := [{ description := "brakes", repairDate := fixDate, cost := 2000 }] }

def fixSale : Sale :=
  { price := 25000, date := fixDate, kiloAtSale := 60000,
    buyerName := "Aye", buyerPassport := "P123" }

def fixPaidCar : Car :=
  { fixInstCar with boughtType := some .paid, sale := some fixSale,
                    installment := none }

def fixAvailCar : Car :=
  { fixInstCar with isAvailable := true, boughtType := none,
                    sale := none, installment := none }

/-- C4.  For an installment-sold vehicle `calculateCarProfitDetails`
computes `generalProfit = priceToSell - (purchasePrice + repairs)`,
`contractValue = downPayment + ledger sum + remainingAmount`,
`detailedProfit = contractValue - (purchasePrice + repairs)`, so
`detailedProfit - generalProfit = contractValue - priceToSell`; for a cash
sale `generalProfit = detailedProfit = sale.price - (purchasePrice +
repairs)` and `contractValue = sale.price`. -/
theorem C4_profit_calculator_correct (c : Car) :
    (∀ ins, c.sale = none → c.installment = some ins →
      (calculateCarProfitDetails c).generalProfit
          = c.priceToSell - (c.purchasePrice + repairCostSum c.repairs)
        ∧ (calculateCarProfitDetails c).contractValue
          = ins.downPayment + sumAmounts ins.paymentHistory + ins.remainingAmount
        ∧ (calculateCarProfitDetails c).detailedProfit
          = (calculateCarProfitDetails c).contractValue
              - (c.purchasePrice + repairCostSum c.repairs)
        ∧ (calculateCarProfitDetails c).detailedProfit
              - (calculateCarProfitDetails c).generalProfit
          = (calculateCarProfitDetails c).contractValue - c.priceToSell)
    ∧ (∀ s, c.sale = some s →
      (calculateCarProfitDetails c).generalProfit
          = s.price - (c.purchasePrice + repairCostSum c.repairs)
        ∧ (calculateCarProfitDetails c).detailedProfit
          = (calculateCarProfitDetails c).generalProfit
        ∧ (calculateCarProfitDetails c).contractValue = s.price) := by
  obtain ⟨ln, br, k, av, pp, pts, bt, sOpt, iOpt, obt, reps⟩ := c
  constructor
  · intro ins hs hi
    subst hs; subst hi
    dsimp only [calculateCarProfitDetails]
    refine ⟨by ring, by ring, by ring, by ring⟩
  · intro s hs
    subst hs
    dsimp only [calculateCarProfitDetails]
    refine ⟨by ring, rfl, rfl⟩

theorem C4_profit_calculator_correct_witness :
    ((calculateCarProfitDetails fixInstCar).generalProfit
        = fixInstCar.priceToSell
          - (fixInstCar.purchasePrice + repairCostSum fixInstCar.repairs)
      ∧ (calculateCarProfitDetails fixInstCar).contractValue
        = fixIns.downPayment + sumAmounts fixIns.paymentHistory
            + fixIns.remainingAmount
      ∧ (calculateCarProfitDetails fixInstCar).detailedProfit
        = (calculateCarProfitDetails fixInstCar).contractValue
            - (fixInstCar.purchasePrice + repairCostSum fixInstCar.repairs)
      ∧ (calculateCarProfitDetails fixInstCar).detailedProfit
            - (calculateCarProfitDetails fixInstCar).generalProfit
        = (calculateCarProfitDetails fixInstCar).contractValue
            - fixInstCar.priceToSell)
    ∧ ((calculateCarProfitDetails fixPaidCar).generalProfit
        = fixSale.price
          - (fixPaidCar.purchasePrice + repairCostSum fixPaidCar.repairs)
      ∧ (calculateCarProfitDetails fixPaidCar).detailedProfit
        = (calculateCarProfitDetails fixPaidCar).generalProfit
      ∧ (calculateCarProfitDetails fixPaidCar).contractValue = fixSale.price) :=
  ⟨(C4_profit_calculator_correct fixInstCar).1 fixIns rfl rfl,
   (C4_profit_calculator_correct fixPaidCar).2 fixSale rfl⟩

/-- C10.  On every successful `ownerBookTransfer` call the stored record
gets `ownerBookTransfer = {transferred: true, transferDate: now, notes:
notes || ""}`, where `now` is the server clock at the moment of the call:
the request body only carries `notes`, so the caller cannot supply or
backdate the transfer date, and installment revenue is attributed to the
period of the call itself. -/
theorem C10_transfer_sets_server_time (now : Instant) (notes : Option String)
    (c c1 : Car) (h : ownerBookTransfer now notes c = .ok c1) :
    c1.ownerBookTransfer
      = some { transferred := true, transferDate := now, notes := notes.getD "" } := by
  unfold ownerBookTransfer at h
  split at h
  · exact absurd h (by simp)
  · split at h
    · exact absurd h (by simp)
    · split at h
      · exact absurd h (by simp)
      · simp only [Except.ok.injEq] at h
        subst h
        rw [Car.save_ownerBookTransfer]

def fixTransferredCar : Car :=
  dbAfter (ownerBookTransfer fixDate none fixPaidCar) fixPaidCar

theorem C10_transfer_sets_server_time_witness :
    fixTransferredCar.ownerBookTransfer
      = some { transferred := true, transferDate := fixDate, notes := "" } :=
  C10_transfer_sets_server_time fixDate none fixPaidCar fixTransferredCar rfl

/-- C6.  `ownerBookTransfer` fails with an `InvalidStateError` when the
vehicle is still available or unsold, and when it was sold on installment
with `remainingAmount > 0` (title not yet transferred); in each failure
case the transfer record and the whole document are unchanged.
Re-invoking it when `ownerBookTransfer.transferred` is already `true`
fails with a `ConflictError` instead of silently succeeding. -/
theorem C6_transfer_failure_guards (now : Instant) (notes : Option String) (c : Car) :
    ((c.isAvailable = true ∨ (c.sale = none ∧ c.installment = none)) →
      ownerBookTransfer now notes c = .error .notSoldOrAvailable
        ∧ TransferErr.notSoldOrAvailable.kind = .invalidStateError
        ∧ (dbAfter (ownerBookTransfer now notes c) c).ownerBookTransfer
            = c.ownerBookTransfer
        ∧ dbAfter (ownerBookTransfer now notes c) c = c)
    ∧ (∀ ins, c.isAvailable = false → c.installment = some ins →
        c.boughtType = some .installment → 0 < ins.remainingAmount →
        (∀ t, c.ownerBookTransfer = some t → t.transferred = false) →
        ownerBookTransfer now notes c = .error .paymentsIncomplete
          ∧ TransferErr.paymentsIncomplete.kind = .invalidStateError
          ∧ (dbAfter (ownerBookTransfer now notes c) c).ownerBookTransfer
              = c.ownerBookTransfer
          ∧ dbAfter (ownerBookTransfer now notes c) c = c)
    ∧ (∀ t, c.isAvailable = false → (c.sale.isSome ∨ c.installment.isSome) →
        c.ownerBookTransfer = some t → t.transferred = true →
        ownerBookTransfer now notes c = .error .alreadyTransferred
          ∧ TransferErr.alreadyTransferred.kind = .conflictError
          ∧ dbAfter (ownerBookTransfer now notes c) c = c) := by
  refine ⟨?_, ?_, ?_⟩
  · intro hcase
    have hres : ownerBookTransfer now notes c = .error .notSoldOrAvailable := by
      unfold ownerBookTransfer
      rcases hcase with hav | ⟨hs, hi⟩
      · simp [hav]
      · simp [hs, hi]
    exact ⟨hres, rfl, by rw [hres]; rfl, by rw [hres]; rfl⟩
  · intro ins hav hins hbt hrem hnt
    have hres : ownerBookTransfer now notes c = .error .paymentsIncomplete := by
      unfold ownerBookTransfer
      have hg1 : ((c.sale.isNone && c.installment.isNone) || c.isAvailable) = false := by
        simp [hav, hins]
      rw [if_neg (by simp [hg1])]
      have hg2 : (Option.map OwnerBook.transferred c.ownerBookTransfer).getD false
          = false := by
        cases hobt : c.ownerBookTransfer with
        | none => rfl
        | some t => simp [hnt t hobt]
      rw [if_neg (by simp [hg2])]
      rw [if_pos (by simp [hbt, hins]; omega)]
    exact ⟨hres, rfl, by rw [hres]; rfl, by rw [hres]; rfl⟩
  · intro t hav hsold hobt htr
    have hres : ownerBookTransfer now notes c = .error .alreadyTransferred := by
      unfold ownerBookTransfer
      have hg1 : ((c.sale.isNone && c.installment.isNone) || c.isAvailable) = false := by
        rw [hav]
        rcases hsold with hs | hi
        · cases hcs : c.sale with
          | none => rw [hcs] at hs; simp at hs
          | some s => simp [hcs]
        · cases hci : c.installment with
          | none => rw [hci] at hi; simp at hi
          | some i => simp [hci]
      rw [if_neg (by simp [hg1])]
      rw [if_pos (by simp [hobt, htr])]
    exact ⟨hres, rfl, by rw [hres]; rfl⟩

def fixUnpaidIns : Installment := { fixIns with remainingAmount := 500 }

def fixUnpaidInstCar : Car := { fixInstCar with installment := some fixUnpaidIns }

def fixDoneIns : Installment := { fixIns with remainingAmount := 0 }

def fixObt : OwnerBook :=
  { transferred := true, transferDate := fixDate, notes := "" }

def fixDoneInstCar : Car :=
  { fixInstCar with installment := some fixDoneIns,
                    ownerBookTransfer := some fixObt }

theorem C6_transfer_failure_guards_witness :
    (ownerBookTransfer fixDate none fixAvailCar = .error .notSoldOrAvailable
      ∧ TransferErr.notSoldOrAvailable.kind = .invalidStateError
      ∧ (dbAfter (ownerBookTransfer fixDate none fixAvailCar) fixAvailCar).ownerBookTransfer
          = fixAvailCar.ownerBookTransfer
      ∧ dbAfter (ownerBookTransfer fixDate none fixAvailCar) fixAvailCar = fixAvailCar)
    ∧ (ownerBookTransfer fixDate none fixUnpaidInstCar = .error .paymentsIncomplete
      ∧ TransferErr.paymentsIncomplete.kind = .invalidStateError
      ∧ (dbAfter (ownerBookTransfer fixDate none fixUnpaidInstCar) fixUnpaidInstCar).ownerBookTransfer
          = fixUnpaidInstCar.ownerBookTransfer
      ∧ dbAfter (ownerBookTransfer fixDate none fixUnpaidInstCar) fixUnpaidInstCar
          = fixUnpaidInstCar)
    ∧ (ownerBookTransfer fixDate none fixDoneInstCar = .error .alreadyTransferred
      ∧ TransferErr.alreadyTransferred.kind = .conflictError
      ∧ dbAfter (ownerBookTransfer fixDate none fixDoneInstCar) fixDoneInstCar
          = fixDoneInstCar) :=
  ⟨(C6_transfer_failure_guards fixDate none fixAvailCar).1 (Or.inl rfl),
   (C6_transfer_failure_guards fixDate none fixUnpaidInstCar).2.1 fixUnpaidIns
     rfl rfl rfl (by decide) (by intro t ht; cases ht),
   (C6_transfer_failure_guards fixDate none fixDoneInstCar).2.2
     fixObt rfl (Or.inr rfl) rfl rfl⟩

/-- The input-side checks of the `markAsPaid` controller (required-field
truthiness plus the numeric validations), i.e. a request that no
validation guard can reject. -/
def saleReqPassesValidation (r : SaleReq) : Bool :=
  !(r.price == 0 || r.soldDate.isNone || r.kiloAtSale == 0 ||
      r.buyerName == "" || r.buyerPassport == "") &&
  (0 < r.price) && (0 ≤ r.kiloAtSale)

/-- C7.  On a vehicle that is not currently available (already sold), a
well-formed `markAsPaid` call fails on the not-available guard — the
conflict of the spec taxonomy — before any mutation, leaving the record,
in particular the sale written by the first successful sale, exactly as it
was. -/
theorem C7_marksoldpaid_conflict (r : SaleReq) (c : Car)
    (hv : saleReqPassesValidation r = true) (hna : c.isAvailable = false) :
    markAsPaid r c = .error .alreadySold
      ∧ PaidErr.alreadySold.kind = .conflictError
      ∧ dbAfter (markAsPaid r c) c = c
      ∧ (dbAfter (markAsPaid r c) c).sale = c.sale := by
  have hres : markAsPaid r c = .error .alreadySold := by
    unfold markAsPaid
    unfold saleReqPassesValidation at hv
    rw [if_neg (by simp_all [Option.isSome_iff_ne_none])]
    rw [if_pos (by simp [hna])]
  exact ⟨hres, rfl, by rw [hres]; rfl, by rw [hres]; rfl⟩

def fixSaleReq : SaleReq :=
  { price := 25000, soldDate := some fixDate, kiloAtSale := 60000,
    buyerName := "Aye", buyerPassport := "P123" }

def fixSoldOnceCar : Car := dbAfter (markAsPaid fixSaleReq fixAvailCar) fixAvailCar

theorem C7_marksoldpaid_conflict_witness :
    markAsPaid fixSaleReq fixSoldOnceCar = .error .alreadySold
      ∧ PaidErr.alreadySold.kind = .conflictError
      ∧ dbAfter (markAsPaid fixSaleReq fixSoldOnceCar) fixSoldOnceCar = fixSoldOnceCar
      ∧ (dbAfter (markAsPaid fixSaleReq fixSoldOnceCar) fixSoldOnceCar).sale
          = fixSoldOnceCar.sale :=
  C7_marksoldpaid_conflict fixSaleReq fixSoldOnceCar (by decide) (by decide)

def fixZeroDownReq : InstReq :=
  { downPayment := 0, remainingAmount := 20000, months := 10,
    monthlyPayment := 2000, buyerName := "Aye", buyerPassport := "P123",
    startDate := some fixDate }

def fixZeroRemReq : InstReq :=
  { fixZeroDownReq with downPayment := 5000, remainingAmount := 0 }

/-- C9 (code bug).  A `markAsInstallment` request with `downPayment = 0`
(or `remainingAmount = 0`) and every other input valid, on an available
vehicle, is rejected by the required-fields truthiness guard with a
validation error.  The controller's own dedicated check further down
(`isNaN(downPayment) || downPayment < 0`) would accept 0, but the JS
truthiness test `!installment.downPayment` fires first, so the
spec-mandated acceptance of zero values never happens. -/
theorem C9_zero_values_rejected :
    markAsInstallment fixDate fixZeroDownReq fixAvailCar = .error .requiredFields
      ∧ markAsInstallment fixDate fixZeroRemReq fixAvailCar = .error .requiredFields
      ∧ InstErr.requiredFields.kind = .validationError
      ∧ fixAvailCar.isAvailable = true
      ∧ fixZeroDownReq.downPayment = 0 ∧ 0 ≤ fixZeroDownReq.remainingAmount
      ∧ 1 ≤ fixZeroDownReq.months ∧ 0 < fixZeroDownReq.monthlyPayment
      ∧ fixZeroDownReq.buyerName ≠ "" ∧ fixZeroDownReq.buyerPassport ≠ ""
      ∧ fixZeroRemReq.remainingAmount = 0 ∧ 0 ≤ fixZeroRemReq.downPayment :=
  ⟨rfl, rfl, rfl, rfl, rfl, by decide, by decide, by decide, by decide,
   by decide, rfl, by decide⟩

/-- The first ledger entry keyed by month `m` (if any) has amount `a`;
vacuously true when no entry is keyed by `m`.  This is the state the upsert
leaves the ledger in, and what makes a repeated upsert sum-preserving. -/
def firstAmountIs (m a : Int) : List PaymentEntry → Bool
  | [] => true
  | p :: rest => if p.monthNumber == some m then p.amount == a else firstAmountIs m a rest

theorem replaceMonth_length (m a pen : Int) (d : Instant) (n : Option String)
    (h : List PaymentEntry) :
    (replaceMonth m a pen d n h).length = h.length := by
  induction h with
  | nil => rfl
  | cons p rest ih =>
    unfold replaceMonth
    split <;> simp [ih]

theorem hasMonth_replaceMonth (m a pen : Int) (d : Instant) (n : Option String)
    (h : List PaymentEntry) :
    hasMonth (replaceMonth m a pen d n h) m = hasMonth h m := by
  induction h with
  | nil => rfl
  | cons p rest ih =>
    unfold replaceMonth
    split <;> simp_all [hasMonth]

theorem firstAmountIs_replaceMonth (m a pen : Int) (d : Instant) (n : Option String)
    (h : List PaymentEntry) :
    firstAmountIs m a (replaceMonth m a pen d n h) = true := by
  induction h with
  | nil => rfl
  | cons p rest ih =>
    unfold replaceMonth
    split
    · simp [firstAmountIs]
    · next hp => simp [firstAmountIs, hp, ih]

theorem firstAmountIs_append (m a : Int) (l : List PaymentEntry)
    (hl : hasMonth l m = false) (e : PaymentEntry)
    (he : e.monthNumber = some m) (hea : e.amount = a) :
    firstAmountIs m a (l ++ [e]) = true := by
  induction l with
  | nil => simp [firstAmountIs, he, hea]
  | cons p rest ih =>
    simp only [hasMonth, List.any_cons, Bool.or_eq_false_iff] at hl
    simp only [List.cons_append, firstAmountIs, hl.1]
    exact ih hl.2

theorem sumAmounts_replaceMonth (m a pen : Int) (d : Instant) (n : Option String)
    (l : List PaymentEntry) (hfa : firstAmountIs m a l = true) :
    sumAmounts (replaceMonth m a pen d n l) = sumAmounts l := by
  induction l with
  | nil => rfl
  | cons p rest ih =>
    unfold replaceMonth
    unfold firstAmountIs at hfa
    split
    · next hp =>
      rw [if_pos hp] at hfa
      have hpa : p.amount = a := beq_iff_eq.mp hfa
      show a + sumAmounts rest = p.amount + sumAmounts rest
      rw [hpa]
    · next hp =>
      rw [if_neg hp] at hfa
      show p.amount + sumAmounts (replaceMonth m a pen d n rest)
        = p.amount + sumAmounts rest
      rw [ih hfa]

theorem hasMonth_append (m : Int) (l : List PaymentEntry) (e : PaymentEntry)
    (he : e.monthNumber = some m) :
    hasMonth (l ++ [e]) m = true := by
  simp [hasMonth, List.any_append, he]

theorem sumAmounts_append_single (l : List PaymentEntry) (e : PaymentEntry) :
    sumAmounts (l ++ [e]) = sumAmounts l + e.amount := by
  induction l with
  | nil => simp [sumAmounts]
  | cons p rest ih =>
    show p.amount + sumAmounts (rest ++ [e]) = p.amount + sumAmounts rest + e.amount
    rw [ih]; ring

theorem upsertApply_monthlyPayment (ins : Installment) (m : Int) (p : Bool)
    (a pen : Int) (d : Instant) (n : Option String) :
    (upsertApply ins m p a pen d n).monthlyPayment = ins.monthlyPayment := rfl

theorem upsertApply_downPayment (ins : Installment) (m : Int) (p : Bool)
    (a pen : Int) (d : Instant) (n : Option String) :
    (upsertApply ins m p a pen d n).downPayment = ins.downPayment := rfl

theorem upsertApply_remaining_nonneg (ins : Installment) (m : Int) (p : Bool)
    (a pen : Int) (d : Instant) (n : Option String) :
    0 ≤ (upsertApply ins m p a pen d n).remainingAmount :=
  le_max_left 0 _

/-- The history a `paid=true` upsert leaves behind. -/
theorem upsertApply_true_history (ins : Installment) (m a pen : Int)
    (d : Instant) (n : Option String) :
    (upsertApply ins m true a pen d n).paymentHistory
      = (if hasMonth ins.paymentHistory m then
          replaceMonth m a pen d n ins.paymentHistory
        else
          ins.paymentHistory ++
            [{ monthNumber := some m, amount := a, penaltyFee := pen,
               paymentDate := d, notes := n.getD "" }]) := rfl

/-- The remaining amount a `paid=true` upsert leaves behind, spelled via the
original-total anchoring of the source. -/
theorem upsertApply_remaining (ins : Installment) (m : Int) (p : Bool)
    (a pen : Int) (d : Instant) (n : Option String) :
    (upsertApply ins m p a pen d n).remainingAmount
      = max 0 (ins.downPayment + ins.remainingAmount + sumAmounts ins.paymentHistory
          - ins.downPayment
          - sumAmounts (upsertApply ins m p a pen d n).paymentHistory) := rfl

/-- After a `paid=true` upsert, the ledger has an entry for the month and
its first such entry carries the upserted amount. -/
theorem upsertApply_true_state (ins : Installment) (m a pen : Int)
    (d : Instant) (n : Option String) :
    hasMonth (upsertApply ins m true a pen d n).paymentHistory m = true
      ∧ firstAmountIs m a (upsertApply ins m true a pen d n).paymentHistory = true := by
  rw [upsertApply_true_history]
  by_cases hm : hasMonth ins.paymentHistory m
  · rw [if_pos hm]
    exact ⟨by rw [hasMonth_replaceMonth]; exact hm,
           firstAmountIs_replaceMonth m a pen d n ins.paymentHistory⟩
  · rw [if_neg hm]
    refine ⟨hasMonth_append m ins.paymentHistory _ rfl, ?_⟩
    exact firstAmountIs_append m a ins.paymentHistory (by simpa using hm) _ rfl rfl

/-- Core idempotence: a second `paid=true` upsert with the same month and
amount replaces the entry it created and re-derives the same balance. -/
theorem upsertApply_true_idem (ins : Installment) (m a pen pen2 : Int)
    (d d2 : Instant) (n n2 : Option String) :
    (upsertApply (upsertApply ins m true a pen d n) m true a pen2 d2 n2).remainingAmount
        = (upsertApply ins m true a pen d n).remainingAmount
      ∧ (upsertApply (upsertApply ins m true a pen d n) m true a pen2 d2 n2).paymentHistory.length
        = (upsertApply ins m true a pen d n).paymentHistory.length := by
  obtain ⟨hhas, hfirst⟩ := upsertApply_true_state ins m a pen d n
  have hhist2 : (upsertApply (upsertApply ins m true a pen d n) m true a pen2 d2 n2).paymentHistory
      = replaceMonth m a pen2 d2 n2 (upsertApply ins m true a pen d n).paymentHistory := by
    rw [upsertApply_true_history, if_pos hhas]
  constructor
  · rw [upsertApply_remaining _ m true a pen2 d2 n2, hhist2,
        sumAmounts_replaceMonth m a pen2 d2 n2 _ hfirst,
        upsertApply_downPayment]
    have hsub : ins.downPayment + (upsertApply ins m true a pen d n).remainingAmount
          + sumAmounts (upsertApply ins m true a pen d n).paymentHistory
          - ins.downPayment
          - sumAmounts (upsertApply ins m true a pen d n).paymentHistory
        = (upsertApply ins m true a pen d n).remainingAmount := by ring
    rw [hsub, max_eq_right (upsertApply_remaining_nonneg ins m true a pen d n)]
  · rw [hhist2, replaceMonth_length]

/-- A fully valid `paid=true` upsert request runs to success and commits the
`upsertApply` rewrite of the installment record. -/
theorem upsert_ctrl_true_ok (now : Instant) (c : Car) (ins : Installment)
    (m a pen : Int) (d : Instant) (n : Option String)
    (hm : 1 ≤ m) (ha : 0 ≤ a) (hpen : 0 ≤ pen) (hins : c.installment = some ins) :
    upsertInstallmentPaymentByMonth now
        { monthNumber := m, paid := some true, penaltyFee := pen,
          paymentDate := some d, notes := n, amount := some a } c
      = .ok (Car.save { c with installment := some (upsertApply ins m true a pen d n) }) := by
  unfold upsertInstallmentPaymentByMonth
  dsimp only
  rw [if_neg (by omega), if_neg (by omega), hins]
  dsimp only
  simp only [Option.getD_some]
  rw [if_neg (by omega)]

/-- A valid `paid=false` upsert request (month only) runs to success and
commits the `upsertApply` removal of the month entry. -/
theorem upsert_ctrl_false_ok (now : Instant) (c : Car) (ins : Installment)
    (m pen : Int) (hm : 1 ≤ m) (hpen : 0 ≤ pen) (hmp : 0 ≤ ins.monthlyPayment)
    (hins : c.installment = some ins) :
    upsertInstallmentPaymentByMonth now
        { monthNumber := m, paid := some false, penaltyFee := pen,
          paymentDate := none, notes := none, amount := none } c
      = .ok (Car.save { c with installment := some (upsertApply ins m false ins.monthlyPayment pen now none) }) := by
  unfold upsertInstallmentPaymentByMonth
  dsimp only
  rw [if_neg (by omega), if_neg (by omega), hins]
  dsimp only
  simp only [Option.getD_none]
  rw [if_neg (by omega)]

/-- C2.  Calling `upsertInstallmentPaymentByMonth` twice in succession with
identical arguments (`month >= 1`, `paid = true`, `amount >= 0`,
`penaltyFee >= 0`) on an installment-sold vehicle succeeds both times, the
second call replaces the month entry instead of appending (ledger length
unchanged), and the original-total anchored recomputation yields the same
`remainingAmount` after the second call as after the first. -/
theorem C2_upsert_idempotent (now : Instant) (c : Car) (ins : Installment)
    (m a pen : Int) (d : Instant) (n : Option String)
    (hm : 1 ≤ m) (ha : 0 ≤ a) (hpen : 0 ≤ pen) (hins : c.installment = some ins) :
    ∃ c1 c2,
      upsertInstallmentPaymentByMonth now
          { monthNumber := m, paid := some true, penaltyFee := pen,
            paymentDate := some d, notes := n, amount := some a } c = .ok c1
      ∧ upsertInstallmentPaymentByMonth now
          { monthNumber := m, paid := some true, penaltyFee := pen,
            paymentDate := some d, notes := n, amount := some a } c1 = .ok c2
      ∧ c2.installment.map Installment.remainingAmount
          = c1.installment.map Installment.remainingAmount
      ∧ c2.installment.map (fun i => i.paymentHistory.length)
          = c1.installment.map (fun i => i.paymentHistory.length) := by
  have h1 := upsert_ctrl_true_ok now c ins m a pen d n hm ha hpen hins
  set i1 := upsertApply ins m true a pen d n with hi1
  set c1 := Car.save { c with installment := some i1 } with hc1
  have hc1ins : c1.installment = some i1 := by
    rw [hc1, Car.save_installment]
  have h2 := upsert_ctrl_true_ok now c1 i1 m a pen d n hm ha hpen hc1ins
  set i2 := upsertApply i1 m true a pen d n with hi2
  set c2 := Car.save { c1 with installment := some i2 } with hc2
  have hc2ins : c2.installment = some i2 := by
    rw [hc2, Car.save_installment]
  refine ⟨c1, c2, h1, h2, ?_, ?_⟩
  · rw [hc1ins, hc2ins]
    simp only [Option.map_some']
    rw [hi2, hi1]
    exact congrArg some (upsertApply_true_idem ins m a pen pen d d n n).1
  · rw [hc1ins, hc2ins]
    simp only [Option.map_some']
    rw [hi2, hi1]
    exact congrArg some (upsertApply_true_idem ins m a pen pen d d n n).2

theorem C2_upsert_idempotent_witness :
    ∃ c1 c2,
      upsertInstallmentPaymentByMonth fixDate
          { monthNumber := 3, paid := some true, penaltyFee := 0,
            paymentDate := some fixDate, notes := some "m3", amount := some 2000 }
          fixInstCar = .ok c1
      ∧ upsertInstallmentPaymentByMonth fixDate
          { monthNumber := 3, paid := some true, penaltyFee := 0,
            paymentDate := some fixDate, notes := some "m3", amount := some 2000 }
          c1 = .ok c2
      ∧ c2.installment.map Installment.remainingAmount
          = c1.installment.map Installment.remainingAmount
      ∧ c2.installment.map (fun i => i.paymentHistory.length)
          = c1.installment.map (fun i => i.paymentHistory.length) :=
  C2_upsert_idempotent fixDate fixInstCar fixIns 3 2000 0 fixDate (some "m3")
    (by decide) (by decide) (by decide) rfl

theorem removeMonth_of_not_has (m : Int) (l : List PaymentEntry)
    (h : hasMonth l m = false) : removeMonth m l = l := by
  induction l with
  | nil => rfl
  | cons p rest ih =>
    simp only [hasMonth, List.any_cons, Bool.or_eq_false_iff] at h
    simp only [removeMonth, List.filter_cons, h.1, Bool.not_false, if_true]
    exact congrArg (p :: ·) (ih (by simpa [hasMonth] using h.2))

theorem removeMonth_append_entry (m : Int) (l : List PaymentEntry)
    (e : PaymentEntry) (he : e.monthNumber = some m) :
    removeMonth m (l ++ [e]) = removeMonth m l := by
  simp [removeMonth, List.filter_append, he]

theorem upsertApply_false_history (ins : Installment) (m a pen : Int)
    (d : Instant) (n : Option String) :
    (upsertApply ins m false a pen d n).paymentHistory
      = removeMonth m ins.paymentHistory := rfl

/-! C3 counterexample fixtures: a contract with 1000 outstanding, a month-1
payment of 5000 recorded (`paid=true`) and then removed (`paid=false`). -/

def fixC3Ins : Installment :=
  { fixIns with downPayment := 0, remainingAmount := 1000 }

def fixC3Car : Car := { fixInstCar with installment := some fixC3Ins }

def fixC3ReqTrue : UpsertReq :=
  { monthNumber := 1, paid := some true, penaltyFee := 0,
    paymentDate := some fixDate, notes := some "x", amount := some 5000 }

def fixC3ReqFalse : UpsertReq := { fixC3ReqTrue with paid := some false }

def fixC3After1 : Car :=
  dbAfter (upsertInstallmentPaymentByMonth fixDate fixC3ReqTrue fixC3Car) fixC3Car

def fixC3After2 : Car :=
  dbAfter (upsertInstallmentPaymentByMonth fixDate fixC3ReqFalse fixC3After1)
    fixC3After1

/-- C3 counterexample.  With 1000 outstanding, upserting a month-1 payment
of 5000 (`paid=true`, clamped to remaining 0) and then removing it
(`paid=false`) leaves `remainingAmount = 5000`, not the original 1000: the
`Math.max(0, ...)` clamp of the intermediate balance loses the overpaid
1000 - 5000 difference, so the round trip does not restore the balance. -/
theorem C3_roundtrip_counterexample :
    fixC3Car.installment.map Installment.remainingAmount = some 1000
      ∧ fixC3After2.installment.map Installment.remainingAmount = some 5000
      ∧ ¬ fixC3After2.installment.map Installment.remainingAmount
          = fixC3Car.installment.map Installment.remainingAmount := by
  refine ⟨rfl, by decide, by decide⟩

/-- C3 amended.  Provided the payment amount does not exceed the current
remaining balance (so the `max(0, ...)` clamp never engages) and no
month-N ledger entry exists before the first call, recording month N with
`paid=true` and then removing it with `paid=false` restores
`remainingAmount` to exactly its value before the first call. -/
theorem C3_roundtrip_restores (now now2 : Instant) (c : Car) (ins : Installment)
    (m a pen pen2 : Int) (d : Instant) (n : Option String)
    (hm : 1 ≤ m) (ha : 0 ≤ a) (hpen : 0 ≤ pen) (hpen2 : 0 ≤ pen2)
    (hmp : 0 ≤ ins.monthlyPayment) (h0 : 0 ≤ ins.remainingAmount)
    (hle : a ≤ ins.remainingAmount)
    (hnm : hasMonth ins.paymentHistory m = false)
    (hins : c.installment = some ins) :
    ∃ c1 c2,
      upsertInstallmentPaymentByMonth now
          { monthNumber := m, paid := some true, penaltyFee := pen,
            paymentDate := some d, notes := n, amount := some a } c = .ok c1
      ∧ upsertInstallmentPaymentByMonth now2
          { monthNumber := m, paid := some false, penaltyFee := pen2,
            paymentDate := none, notes := none, amount := none } c1 = .ok c2
      ∧ c2.installment.map Installment.remainingAmount = some ins.remainingAmount := by
  have h1 := upsert_ctrl_true_ok now c ins m a pen d n hm ha hpen hins
  set i1 := upsertApply ins m true a pen d n with hi1
  set c1 := Car.save { c with installment := some i1 } with hc1
  have hc1ins : c1.installment = some i1 := by
    rw [hc1, Car.save_installment]
  have hmp1 : 0 ≤ i1.monthlyPayment := by
    rw [hi1, upsertApply_monthlyPayment]; exact hmp
  have h2 := upsert_ctrl_false_ok now2 c1 i1 m pen2 hm hpen2 hmp1 hc1ins
  set i2 := upsertApply i1 m false i1.monthlyPayment pen2 now2 none with hi2
  set c2 := Car.save { c1 with installment := some i2 } with hc2
  have hc2ins : c2.installment = some i2 := by
    rw [hc2, Car.save_installment]
  have hD : i1.downPayment = ins.downPayment := by
    rw [hi1, upsertApply_downPayment]
  have hi1hist : i1.paymentHistory
      = ins.paymentHistory ++
          [{ monthNumber := some m, amount := a, penaltyFee := pen,
             paymentDate := d, notes := n.getD "" }] := by
    rw [hi1, upsertApply_true_history, if_neg (by simp [hnm])]
  have hsum1 : sumAmounts i1.paymentHistory = sumAmounts ins.paymentHistory + a := by
    rw [hi1hist, sumAmounts_append_single]
  have hrem1 : i1.remainingAmount
      = max 0 (ins.downPayment + ins.remainingAmount + sumAmounts ins.paymentHistory
          - ins.downPayment - sumAmounts i1.paymentHistory) :=
    upsertApply_remaining ins m true a pen d n
  have hi1rem : i1.remainingAmount = ins.remainingAmount - a := by
    rw [hsum1] at hrem1
    have harith : ins.downPayment + ins.remainingAmount + sumAmounts ins.paymentHistory
          - ins.downPayment - (sumAmounts ins.paymentHistory + a)
        = ins.remainingAmount - a := by ring
    rw [harith] at hrem1
    rw [hrem1]
    exact max_eq_right (by omega)
  have hi2hist : i2.paymentHistory = ins.paymentHistory := by
    rw [hi2, upsertApply_false_history, hi1hist,
        removeMonth_append_entry m ins.paymentHistory _ rfl,
        removeMonth_of_not_has m ins.paymentHistory hnm]
  have hrem2 : i2.remainingAmount
      = max 0 (i1.downPayment + i1.remainingAmount + sumAmounts i1.paymentHistory
          - i1.downPayment - sumAmounts i2.paymentHistory) :=
    upsertApply_remaining i1 m false i1.monthlyPayment pen2 now2 none
  have hi2rem : i2.remainingAmount = ins.remainingAmount := by
    rw [hD, hi1rem, hsum1, hi2hist] at hrem2
    have harith2 : ins.downPayment + (ins.remainingAmount - a)
          + (sumAmounts ins.paymentHistory + a)
          - ins.downPayment - sumAmounts ins.paymentHistory
        = ins.remainingAmount := by ring
    rw [harith2] at hrem2
    rw [hrem2]
    exact max_eq_right h0
  exact ⟨c1, c2, h1, h2, by rw [hc2ins]; simp only [Option.map_some']; rw [hi2rem]⟩

theorem C3_roundtrip_restores_witness :
    ∃ c1 c2,
      upsertInstallmentPaymentByMonth fixDate
          { monthNumber := 1, paid := some true, penaltyFee := 0,
            paymentDate := some fixDate, notes := some "m1", amount := some 2000 }
          fixInstCar = .ok c1
      ∧ upsertInstallmentPaymentByMonth fixDate
          { monthNumber := 1, paid := some false, penaltyFee := 0,
            paymentDate := none, notes := none, amount := none } c1 = .ok c2
      ∧ c2.installment.map Installment.remainingAmount
          = some fixIns.remainingAmount :=
  C3_roundtrip_restores fixDate fixDate fixInstCar fixIns 1 2000 0 0 fixDate
    (some "m1") (by decide) (by decide) (by decide) (by decide) (by decide)
    (by decide) (by decide) (by decide) rfl

/-- The save hooks re-establish the sale-state invariant for any document
that does not carry both a sale and an installment, provided an unsold
document is still marked available. -/
theorem carInv_save (c : Car)
    (hboth : ¬(c.sale.isSome = true ∧ c.installment.isSome = true))
    (hnone : c.sale = none → c.installment = none → c.isAvailable = true) :
    carInv (Car.save c) = true := by
  cases hs : c.sale with
  | some s =>
    cases hi : c.installment with
    | some i => exact absurd ⟨by simp [hs], by simp [hi]⟩ hboth
    | none =>
      cases hav : c.isAvailable <;>
        simp [Car.save, Car.preValidate, Car.preSave, carInv, hs, hi, hav]
  | none =>
    cases hi : c.installment with
    | some i =>
      cases hav : c.isAvailable <;>
        simp [Car.save, Car.preValidate, Car.preSave, carInv, hs, hi, hav]
    | none =>
      have hav := hnone hs hi
      simp [Car.save, Car.preValidate, Car.preSave, carInv, hs, hi, hav]

theorem carInv_markAsPaid (r : SaleReq) (c : Car) (h : carInv c = true) :
    carInv (dbAfter (markAsPaid r c) c) = true := by
  unfold markAsPaid
  split
  · simpa [dbAfter] using h
  · split
    · simpa [dbAfter] using h
    · split
      · simpa [dbAfter] using h
      · split
        · simpa [dbAfter] using h
        · split
          · simpa [dbAfter] using h
          · split
            · simpa [dbAfter] using h
            · next c1 heq =>
              unfold Car.markAsPaid at heq
              split at heq
              · simp at heq
              · simp only [Except.ok.injEq] at heq
                subst heq
                simp only [dbAfter]
                apply carInv_save
                · simp
                · intro hs
                  simp at hs

theorem carInv_markAsInstallment (now : Instant) (r : InstReq) (c : Car)
    (h : carInv c = true) :
    carInv (dbAfter (markAsInstallment now r c) c) = true := by
  unfold markAsInstallment
  split
  · simpa [dbAfter] using h
  · split
    · simpa [dbAfter] using h
    · split
      · simpa [dbAfter] using h
      · split
        · simpa [dbAfter] using h
        · split
          · simpa [dbAfter] using h
          · split
            · simpa [dbAfter] using h
            · dsimp only
              split
              · simpa [dbAfter] using h
              · next c1 heq =>
                unfold Car.markAsInstallment at heq
                split at heq
                · simp at heq
                · simp only [Except.ok.injEq] at heq
                  subst heq
                  simp only [dbAfter]
                  apply carInv_save
                  · simp
                  · intro hs hi
                    simp at hi

theorem carInv_addInstallmentPayment (now : Instant) (amount : Int)
    (paymentDate : Option Instant) (notes : Option String) (c : Car)
    (h : carInv c = true) :
    carInv (dbAfter (addInstallmentPayment now amount paymentDate notes c) c) = true := by
  unfold addInstallmentPayment
  split
  · simpa [dbAfter] using h
  · split
    · simpa [dbAfter] using h
    · next ins hins =>
      split
      · simpa [dbAfter] using h
      · split
        · simpa [dbAfter] using h
        · split
          · simpa [dbAfter] using h
          · next c1 heq =>
            unfold Car.addInstallmentPayment at heq
            rw [hins] at heq
            dsimp only at heq
            split at heq
            · simp at heq
            · simp only [Except.ok.injEq] at heq
              subst heq
              simp only [dbAfter]
              apply carInv_save
              · intro hcontra
                have hsale : c.sale = none := by
                  cases hcs : c.sale with
                  | none => rfl
                  | some s =>
                    rw [carInv, hcs, hins] at h
                    simp at h
                simp [hsale] at hcontra
              · intro hs hi
                simp at hi

theorem carInv_upsert (now : Instant) (r : UpsertReq) (c : Car)
    (h : carInv c = true) :
    carInv (dbAfter (upsertInstallmentPaymentByMonth now r c) c) = true := by
  unfold upsertInstallmentPaymentByMonth
  split
  · simpa [dbAfter] using h
  · split
    · simpa [dbAfter] using h
    · split
      · simpa [dbAfter] using h
      · split
        · simpa [dbAfter] using h
        · next ins hins =>
          dsimp only
          split
          · simpa [dbAfter] using h
          · simp only [dbAfter]
            apply carInv_save
            · intro hcontra
              have hsale : c.sale = none := by
                cases hcs : c.sale with
                | none => rfl
                | some s =>
                  rw [carInv, hcs, hins] at h
                  simp at h
              simp [hsale] at hcontra
            · intro hs hi
              simp at hi

theorem carInv_not_both (c : Car) (h : carInv c = true) :
    ¬(c.sale.isSome = true ∧ c.installment.isSome = true) := by
  rintro ⟨hs, hi⟩
  cases hcs : c.sale with
  | none => rw [hcs] at hs; simp at hs
  | some s =>
    cases hci : c.installment with
    | none => rw [hci] at hi; simp at hi
    | some i => simp [carInv, hcs, hci] at h

theorem carInv_installment_none (c : Car) (s : Sale) (h : carInv c = true)
    (hs : c.sale = some s) : c.installment = none := by
  cases hci : c.installment with
  | none => rfl
  | some i => simp [carInv, hs, hci] at h

theorem carInv_sale_none (c : Car) (ins : Installment) (h : carInv c = true)
    (hi : c.installment = some ins) : c.sale = none := by
  cases hcs : c.sale with
  | none => rfl
  | some s => simp [carInv, hcs, hi] at h

theorem carInv_ownerBookTransfer (now : Instant) (notes : Option String)
    (c : Car) (h : carInv c = true) :
    carInv (dbAfter (ownerBookTransfer now notes c) c) = true := by
  unfold ownerBookTransfer
  split
  · simpa [dbAfter] using h
  · next hg1 =>
    split
    · simpa [dbAfter] using h
    · split
      · simpa [dbAfter] using h
      · simp only [dbAfter]
        apply carInv_save
        · simpa using carInv_not_both c h
        · intro hs hi
          exfalso
          apply hg1
          simp only at hs hi
          simp [hs, hi]

theorem carInv_editSaleTail (r : EditSaleReq) (c : Car) (s : Sale)
    (h : carInv c = true) (hinst : c.installment = none) :
    carInv (dbAfter (editSaleInfo.editSaleTail r c s) c) = true := by
  unfold editSaleInfo.editSaleTail
  dsimp only
  split
  · split
    · simpa [dbAfter] using h
    · simp only [dbAfter]
      apply carInv_save
      · rintro ⟨_, hi⟩
        simp only at hi
        rw [hinst] at hi
        simp at hi
      · intro hs
        simp at hs
  · simp only [dbAfter]
    apply carInv_save
    · rintro ⟨_, hi⟩
      simp only at hi
      rw [hinst] at hi
      simp at hi
    · intro hs
      simp at hs

theorem carInv_editSaleNumeric (r : EditSaleReq) (c : Car) (s : Sale)
    (h : carInv c = true) (hinst : c.installment = none) :
    carInv (dbAfter (editSaleInfo.editSaleNumeric r c s) c) = true := by
  unfold editSaleInfo.editSaleNumeric
  split
  · split
    · simpa [dbAfter] using h
    · exact carInv_editSaleTail r c _ h hinst
  · exact carInv_editSaleTail r c _ h hinst

theorem carInv_editSaleInfo (r : EditSaleReq) (c : Car) (h : carInv c = true) :
    carInv (dbAfter (editSaleInfo r c) c) = true := by
  unfold editSaleInfo
  split
  · simpa [dbAfter] using h
  · next s hs =>
    have hinst := carInv_installment_none c s h hs
    split
    · split
      · simpa [dbAfter] using h
      · exact carInv_editSaleNumeric r c _ h hinst
    · exact carInv_editSaleNumeric r c _ h hinst

theorem carInv_editInstTail (r : EditInstReq) (c : Car) (ins : Installment)
    (hsale : c.sale = none) :
    carInv (dbAfter (editInstallmentInfo.editInstTail r c ins) c) = true := by
  unfold editInstallmentInfo.editInstTail
  dsimp only
  simp only [dbAfter]
  apply carInv_save
  · rintro ⟨hs, _⟩
    simp only at hs
    rw [hsale] at hs
    simp at hs
  · intro _ hi
    simp at hi

theorem carInv_editInstMonths (r : EditInstReq) (c : Car) (ins : Installment)
    (h : carInv c = true) (hsale : c.sale = none) :
    carInv (dbAfter (editInstallmentInfo.editInstMonths r c ins) c) = true := by
  unfold editInstallmentInfo.editInstMonths
  split
  · split
    · simpa [dbAfter] using h
    · exact carInv_editInstTail r c _ hsale
  · exact carInv_editInstTail r c _ hsale

theorem carInv_editInstRemaining (r : EditInstReq) (c : Car) (ins : Installment)
    (h : carInv c = true) (hsale : c.sale = none) :
    carInv (dbAfter (editInstallmentInfo.editInstRemaining r c ins) c) = true := by
  unfold editInstallmentInfo.editInstRemaining
  split
  · split
    · simpa [dbAfter] using h
    · exact carInv_editInstMonths r c _ h hsale
  · exact carInv_editInstMonths r c _ h hsale

theorem carInv_editInstNumeric (r : EditInstReq) (c : Car) (ins : Installment)
    (h : carInv c = true) (hsale : c.sale = none) :
    carInv (dbAfter (editInstallmentInfo.editInstNumeric r c ins) c) = true := by
  unfold editInstallmentInfo.editInstNumeric
  split
  · split
    · simpa [dbAfter] using h
    · exact carInv_editInstRemaining r c _ h hsale
  · exact carInv_editInstRemaining r c _ h hsale

theorem carInv_editInstallmentInfo (r : EditInstReq) (c : Car)
    (h : carInv c = true) :
    carInv (dbAfter (editInstallmentInfo r c) c) = true := by
  unfold editInstallmentInfo
  split
  · simpa [dbAfter] using h
  · next ins hins =>
    have hsale := carInv_sale_none c ins h hins
    split
    · split
      · simpa [dbAfter] using h
      · exact carInv_editInstNumeric r c _ h hsale
    · exact carInv_editInstNumeric r c _ h hsale

theorem carInv_editCar (brand : Option String) (kilo : Option Int)
    (purchasePrice : Option Int) (priceToSell : Option Int)
    (repairs : Option (List Repair)) (c : Car) (h : carInv c = true) :
    carInv (editCar brand kilo purchasePrice priceToSell repairs c) = true := by
  unfold editCar
  apply carInv_save
  · simpa using carInv_not_both c h
  · intro hs hi
    simp only at hs hi
    simpa [carInv, hs, hi] using h

theorem carInv_createCar (a : CreateArgs) : carInv (createCar a) = true := by
  unfold createCar
  apply carInv_save
  · rintro ⟨hs, _⟩
    simp at hs
  · intro _ _
    rfl

theorem carInv_relist (c : Car) : carInv (Car.save c.relist) = true := by
  apply carInv_save
  · rintro ⟨hs, _⟩
    simp [Car.relist] at hs
  · intro _ _
    simp [Car.relist]

/-- C5.  The "exactly one sale state" invariant: starting from any record
satisfying it, every modelled operation — creation, `markAsPaid`,
`markAsInstallment`, payment recording (simple and month-keyed upsert),
ownership transfer, the sale/installment/descriptive edits, and `relist` —
leaves the stored document satisfying it again: `sale` and `installment`
are never both set, either being set forces `isAvailable = false`, and a
record with neither has `isAvailable = true`. -/
theorem C5_sale_state_invariant (c : Car) (h : carInv c = true)
    (now : Instant) (rs : SaleReq) (ri : InstReq) (ru : UpsertReq)
    (amount : Int) (pd : Option Instant) (ns : Option String)
    (res : EditSaleReq) (rei : EditInstReq)
    (br : Option String) (k pp pts : Option Int) (reps : Option (List Repair))
    (ca : CreateArgs) :
    carInv (createCar ca) = true
    ∧ carInv (dbAfter (markAsPaid rs c) c) = true
    ∧ carInv (dbAfter (markAsInstallment now ri c) c) = true
    ∧ carInv (dbAfter (addInstallmentPayment now amount pd ns c) c) = true
    ∧ carInv (dbAfter (upsertInstallmentPaymentByMonth now ru c) c) = true
    ∧ carInv (dbAfter (ownerBookTransfer now ns c) c) = true
    ∧ carInv (dbAfter (editSaleInfo res c) c) = true
    ∧ carInv (dbAfter (editInstallmentInfo rei c) c) = true
    ∧ carInv (editCar br k pp pts reps c) = true
    ∧ carInv (Car.save c.relist) = true :=
  ⟨carInv_createCar ca, carInv_markAsPaid rs c h,
   carInv_markAsInstallment now ri c h,
   carInv_addInstallmentPayment now amount pd ns c h, carInv_upsert now ru c h,
   carInv_ownerBookTransfer now ns c h, carInv_editSaleInfo res c h,
   carInv_editInstallmentInfo rei c h, carInv_editCar br k pp pts reps c h,
   carInv_relist c⟩

def fixUpsReq : UpsertReq :=
  { monthNumber := 2, paid := some true, penaltyFee := 0,
    paymentDate := some fixDate, notes := none, amount := some 2000 }

def fixEditSaleReq : EditSaleReq :=
  { buyer := none, kiloAtSale := none, saleDate := none, price := some 26000 }

def fixEditInstReq : EditInstReq :=
  { buyer := none, downPayment := none, remainingAmount := some 18000,
    months := none, startDate := none }

def fixCreateArgs : CreateArgs :=
  { licenseNo := "BB7", brand := "Honda", kilo := 90000,
    purchasePrice := 9000, priceToSell := 12000, repairs := [] }

theorem C5_sale_state_invariant_witness :
    carInv (createCar fixCreateArgs) = true
    ∧ carInv (dbAfter (markAsPaid fixSaleReq fixInstCar) fixInstCar) = true
    ∧ carInv (dbAfter (markAsInstallment fixDate fixZeroDownReq fixInstCar) fixInstCar) = true
    ∧ carInv (dbAfter (addInstallmentPayment fixDate 1000 none none fixInstCar) fixInstCar) = true
    ∧ carInv (dbAfter (upsertInstallmentPaymentByMonth fixDate fixUpsReq fixInstCar) fixInstCar) = true
    ∧ carInv (dbAfter (ownerBookTransfer fixDate none fixInstCar) fixInstCar) = true
    ∧ carInv (dbAfter (editSaleInfo fixEditSaleReq fixInstCar) fixInstCar) = true
    ∧ carInv (dbAfter (editInstallmentInfo fixEditInstReq fixInstCar) fixInstCar) = true
    ∧ carInv (editCar none none none none none fixInstCar) = true
    ∧ carInv (Car.save fixInstCar.relist) = true :=
  C5_sale_state_invariant fixInstCar (by decide) fixDate fixSaleReq
    fixZeroDownReq fixUpsReq 1000 none none fixEditSaleReq fixEditInstReq
    none none none none none fixCreateArgs

theorem remainingNonneg_save (c : Car) :
    remainingNonneg (Car.save c) = remainingNonneg c := by
  unfold remainingNonneg
  rw [Car.save_installment]

theorem remNonneg_markAsInstallment (now : Instant) (r : InstReq) (c : Car)
    (h : remainingNonneg c = true) :
    remainingNonneg (dbAfter (markAsInstallment now r c) c) = true := by
  unfold markAsInstallment
  split
  · simpa [dbAfter] using h
  · split
    · simpa [dbAfter] using h
    · split
      · simpa [dbAfter] using h
      · next hrem =>
        split
        · simpa [dbAfter] using h
        · split
          · simpa [dbAfter] using h
          · split
            · simpa [dbAfter] using h
            · dsimp only
              split
              · simpa [dbAfter] using h
              · next c1 heq =>
                unfold Car.markAsInstallment at heq
                split at heq
                · simp at heq
                · simp only [Except.ok.injEq] at heq
                  subst heq
                  simp only [dbAfter]
                  rw [remainingNonneg_save]
                  simp only [remainingNonneg]
                  simp only [decide_eq_true_eq]
                  omega

theorem remNonneg_addInstallmentPayment (now : Instant) (amount : Int)
    (paymentDate : Option Instant) (notes : Option String) (c : Car)
    (h : remainingNonneg c = true) :
    remainingNonneg (dbAfter (addInstallmentPayment now amount paymentDate notes c) c)
      = true := by
  unfold addInstallmentPayment
  split
  · simpa [dbAfter] using h
  · split
    · simpa [dbAfter] using h
    · next ins hins =>
      split
      · simpa [dbAfter] using h
      · split
        · simpa [dbAfter] using h
        · split
          · simpa [dbAfter] using h
          · next c1 heq =>
            unfold Car.addInstallmentPayment at heq
            rw [hins] at heq
            dsimp only at heq
            split at heq
            · simp at heq
            · simp only [Except.ok.injEq] at heq
              subst heq
              simp only [dbAfter]
              rw [remainingNonneg_save]
              simp only [remainingNonneg]
              simp only [decide_eq_true_eq]
              exact le_max_left 0 _

theorem remNonneg_upsert (now : Instant) (r : UpsertReq) (c : Car)
    (h : remainingNonneg c = true) :
    remainingNonneg (dbAfter (upsertInstallmentPaymentByMonth now r c) c) = true := by
  unfold upsertInstallmentPaymentByMonth
  split
  · simpa [dbAfter] using h
  · split
    · simpa [dbAfter] using h
    · split
      · simpa [dbAfter] using h
      · split
        · simpa [dbAfter] using h
        · next ins hins =>
          dsimp only
          split
          · simpa [dbAfter] using h
          · simp only [dbAfter]
            rw [remainingNonneg_save]
            simp only [remainingNonneg]
            simp only [decide_eq_true_eq]
            exact upsertApply_remaining_nonneg _ _ _ _ _ _ _

theorem remNonneg_editInstTail (r : EditInstReq) (c : Car) (ins : Installment)
    (h0 : 0 ≤ ins.remainingAmount) :
    remainingNonneg (dbAfter (editInstallmentInfo.editInstTail r c ins) c) = true := by
  unfold editInstallmentInfo.editInstTail
  dsimp only
  simp only [dbAfter]
  rw [remainingNonneg_save]
  simp only [remainingNonneg]
  split <;> simpa [decide_eq_true_eq] using h0

theorem remNonneg_editInstMonths (r : EditInstReq) (c : Car) (ins : Installment)
    (h0 : 0 ≤ ins.remainingAmount) (h : remainingNonneg c = true) :
    remainingNonneg (dbAfter (editInstallmentInfo.editInstMonths r c ins) c) = true := by
  unfold editInstallmentInfo.editInstMonths
  split
  · split
    · simpa [dbAfter] using h
    · exact remNonneg_editInstTail r c _ h0
  · exact remNonneg_editInstTail r c _ h0

theorem remNonneg_editInstRemaining (r : EditInstReq) (c : Car) (ins : Installment)
    (h0 : 0 ≤ ins.remainingAmount) (h : remainingNonneg c = true) :
    remainingNonneg (dbAfter (editInstallmentInfo.editInstRemaining r c ins) c) = true := by
  unfold editInstallmentInfo.editInstRemaining
  split
  · next a ha =>
    split
    · simpa [dbAfter] using h
    · next hnlt => exact remNonneg_editInstMonths r c _ (by simpa using (by omega : (0:Int) ≤ a)) h
  · exact remNonneg_editInstMonths r c _ h0 h

theorem remNonneg_editInstNumeric (r : EditInstReq) (c : Car) (ins : Installment)
    (h0 : 0 ≤ ins.remainingAmount) (h : remainingNonneg c = true) :
    remainingNonneg (dbAfter (editInstallmentInfo.editInstNumeric r c ins) c) = true := by
  unfold editInstallmentInfo.editInstNumeric
  split
  · split
    · simpa [dbAfter] using h
    · exact remNonneg_editInstRemaining r c _ h0 h
  · exact remNonneg_editInstRemaining r c _ h0 h

theorem remNonneg_editInstallmentInfo (r : EditInstReq) (c : Car)
    (h : remainingNonneg c = true) :
    remainingNonneg (dbAfter (editInstallmentInfo r c) c) = true := by
  unfold editInstallmentInfo
  split
  · simpa [dbAfter] using h
  · next ins hins =>
    have h0 : 0 ≤ ins.remainingAmount := by
      simp only [remainingNonneg, hins, decide_eq_true_eq] at h
      exact h
    split
    · split
      · simpa [dbAfter] using h
      · exact remNonneg_editInstNumeric r c _ h0 h
    · exact remNonneg_editInstNumeric r c _ h0 h

/-- C8.  `installment.remainingAmount >= 0` is preserved by every modelled
operation that can write it — `markAsInstallment` (validated input), the
simple payment recording and the month-keyed upsert (both clamp at 0 via
`Math.max`), and the installment-detail edit (validated input) — and the
fully-paid notion of the schema virtual holds exactly when
`remainingAmount <= 0`. -/
theorem C8_remaining_nonneg_invariant (c : Car) (h : remainingNonneg c = true)
    (now : Instant) (ri : InstReq) (amount : Int) (pd : Option Instant)
    (ns : Option String) (ru : UpsertReq) (rei : EditInstReq) :
    remainingNonneg (dbAfter (markAsInstallment now ri c) c) = true
    ∧ remainingNonneg (dbAfter (addInstallmentPayment now amount pd ns c) c) = true
    ∧ remainingNonneg (dbAfter (upsertInstallmentPaymentByMonth now ru c) c) = true
    ∧ remainingNonneg (dbAfter (editInstallmentInfo rei c) c) = true
    ∧ (∀ ins, c.installment = some ins →
        (installmentIsFullyPaid c = some true ↔ ins.remainingAmount ≤ 0)) := by
  refine ⟨remNonneg_markAsInstallment now ri c h,
    remNonneg_addInstallmentPayment now amount pd ns c h,
    remNonneg_upsert now ru c h,
    remNonneg_editInstallmentInfo rei c h, ?_⟩
  intro ins hins
  simp [installmentIsFullyPaid, hins]

theorem C8_remaining_nonneg_invariant_witness :
    remainingNonneg (dbAfter (markAsInstallment fixDate fixZeroDownReq fixInstCar) fixInstCar) = true
    ∧ remainingNonneg (dbAfter (addInstallmentPayment fixDate 1000 none none fixInstCar) fixInstCar) = true
    ∧ remainingNonneg (dbAfter (upsertInstallmentPaymentByMonth fixDate fixUpsReq fixInstCar) fixInstCar) = true
    ∧ remainingNonneg (dbAfter (editInstallmentInfo fixEditInstReq fixInstCar) fixInstCar) = true
    ∧ (∀ ins, fixInstCar.installment = some ins →
        (installmentIsFullyPaid fixInstCar = some true ↔ ins.remainingAmount ≤ 0)) :=
  C8_remaining_nonneg_invariant fixInstCar (by decide) fixDate fixZeroDownReq
    1000 none none fixUpsReq fixEditInstReq

/-- `t` falls in the calendar month immediately before the month of `now`
(same year, previous month; or December of the previous year). -/
def inPreviousMonth (t now : Instant) : Prop :=
  (t.year = now.year ∧ t.month = now.month - 1) ∨
  (now.month = 0 ∧ t.year = now.year - 1 ∧ t.month = 11)

theorem mkJSDate_of_wf (nw : Instant) (hwf : nw.wf) :
    mkJSDate nw.year nw.month 1 = { year := nw.year, month := nw.month, day := 1, time := 0 } := by
  obtain ⟨h1, h2, _⟩ := hwf
  unfold mkJSDate
  have hfd : nw.month.fdiv 12 = 0 := by
    rw [Int.fdiv_eq_ediv _ (by norm_num)]
    omega
  have hem : nw.month.emod 12 = nw.month := Int.emod_eq_of_lt h1 h2
  rw [hfd, hem]
  simp

theorem prevMonth_before_monthStart (nw : Instant) (hwf : nw.wf) (t : Instant)
    (hprev : inPreviousMonth t nw) :
    Instant.le (mkJSDate nw.year nw.month 1) t = false := by
  rw [mkJSDate_of_wf nw hwf]
  unfold Instant.le
  rcases hprev with ⟨hy, hm⟩ | ⟨hz, hy, hm⟩
  · rw [if_neg (by simp [hy]), if_pos (by simp; omega)]
    simp only [decide_eq_false_iff_not]
    omega
  · rw [if_pos (by simp; omega)]
    simp only [decide_eq_false_iff_not]
    omega

theorem instFilter_false_of_not_le (s nw : Instant) (c : Car) (t : OwnerBook)
    (hobt : c.ownerBookTransfer = some t)
    (hle : Instant.le s t.transferDate = false) :
    getInstallmentProfitAnalysisFilter s nw c = false := by
  unfold getInstallmentProfitAnalysisFilter installmentArmMatch
  rw [hobt]
  simp [hle]

theorem instFilter_iff (s nw : Instant) (c : Car) (ins : Installment)
    (hins : c.installment = some ins) (hbt : c.boughtType = some .installment)
    (hav : c.isAvailable = false) :
    (getInstallmentProfitAnalysisFilter s nw c = true ↔
      ∃ t, c.ownerBookTransfer = some t ∧ t.transferred = true
        ∧ Instant.le s t.transferDate = true
        ∧ Instant.le t.transferDate nw = true
        ∧ ins.remainingAmount ≤ 0) := by
  unfold getInstallmentProfitAnalysisFilter installmentArmMatch
  rw [hins, hbt, hav]
  cases hobt : c.ownerBookTransfer with
  | none => simp
  | some t =>
    simp only [Option.map_some', Option.getD_some, Bool.and_eq_true,
      Option.isSome_some, beq_self_eq_true, decide_eq_true_eq,
      Bool.not_false, and_true, true_and, Option.some.injEq]
    constructor
    · rintro ⟨⟨⟨hle1, hle2⟩, hrem⟩, htr⟩
      exact ⟨t, rfl, htr, hle1, hle2, hrem⟩
    · rintro ⟨t2, ht2, htr, hle1, hle2, hrem⟩
      cases ht2
      exact ⟨⟨⟨hle1, hle2⟩, hrem⟩, htr⟩

theorem profitFilter_eq_instFilter (s nw : Instant) (c : Car)
    (hsale : c.sale = none) :
    getProfitAnalysisFilter s nw c = getInstallmentProfitAnalysisFilter s nw c := by
  unfold getProfitAnalysisFilter getInstallmentProfitAnalysisFilter paidArmMatch
  rw [hsale]
  simp

/-- C1.  For every valid period selector, both installment report paths
(the installment arm of the exported `getProfitAnalysis` and the
`getInstallmentProfitAnalysis` query) include an installment-sold vehicle
iff its `ownerBookTransfer.transferDate` lies in the period range and
`transferred = true` and `installment.remainingAmount <= 0`; in
particular, under the `monthly` period a vehicle whose transfer date falls
in the previous month is excluded, regardless of its
`installment.startDate`. -/
theorem C1_installment_report_recognition (period : String)
    (hp : period = "monthly" ∨ period = "6months" ∨ period = "yearly")
    (now : Instant) (hwf : now.wf) (c : Car) (ins : Installment)
    (hins : c.installment = some ins) (hbt : c.boughtType = some .installment)
    (hav : c.isAvailable = false) (hsale : c.sale = none) :
    ∃ startDate, getDateRange period now = some (startDate, now)
      ∧ (getInstallmentProfitAnalysisFilter startDate now c = true ↔
          ∃ t, c.ownerBookTransfer = some t ∧ t.transferred = true
            ∧ Instant.le startDate t.transferDate = true
            ∧ Instant.le t.transferDate now = true
            ∧ ins.remainingAmount ≤ 0)
      ∧ getProfitAnalysisFilter startDate now c
          = getInstallmentProfitAnalysisFilter startDate now c
      ∧ (period = "monthly" →
          ∀ t, c.ownerBookTransfer = some t → inPreviousMonth t.transferDate now →
            getInstallmentProfitAnalysisFilter startDate now c = false) := by
  rcases hp with hper | hper | hper <;> subst hper
  · refine ⟨mkJSDate now.year now.month 1, rfl,
      instFilter_iff _ now c ins hins hbt hav,
      profitFilter_eq_instFilter _ now c hsale, ?_⟩
    intro _ t hobt hprev
    exact instFilter_false_of_not_le _ now c t hobt
      (prevMonth_before_monthStart now hwf t.transferDate hprev)
  · exact ⟨mkJSDate now.year (now.month - 5) 1, rfl,
      instFilter_iff _ now c ins hins hbt hav,
      profitFilter_eq_instFilter _ now c hsale,
      fun habs => absurd habs (by decide)⟩
  · exact ⟨mkJSDate now.year 0 1, rfl,
      instFilter_iff _ now c ins hins hbt hav,
      profitFilter_eq_instFilter _ now c hsale,
      fun habs => absurd habs (by decide)⟩

theorem C1_installment_report_recognition_witness :
    ∃ startDate, getDateRange "monthly" fixDate = some (startDate, fixDate)
      ∧ (getInstallmentProfitAnalysisFilter startDate fixDate fixInstCar = true ↔
          ∃ t, fixInstCar.ownerBookTransfer = some t ∧ t.transferred = true
            ∧ Instant.le startDate t.transferDate = true
            ∧ Instant.le t.transferDate fixDate = true
            ∧ fixIns.remainingAmount ≤ 0)
      ∧ getProfitAnalysisFilter startDate fixDate fixInstCar
          = getInstallmentProfitAnalysisFilter startDate fixDate fixInstCar
      ∧ ("monthly" = "monthly" →
          ∀ t, fixInstCar.ownerBookTransfer = some t →
            inPreviousMonth t.transferDate fixDate →
            getInstallmentProfitAnalysisFilter startDate fixDate fixInstCar = false) :=
  C1_installment_report_recognition "monthly" (Or.inl rfl) fixDate (by decide)
    fixInstCar fixIns rfl rfl rfl rfl
